import Mathlib

/-!
# C State Machine (`src/main.c`): a shallow embedding

The program keeps two globals (`state`, `iteration`), draws on an ncurses
window, polls the keyboard with a non-blocking `getch`, and paces its main
loop with `time` and `usleep`.  Everything the program can touch is gathered
in one record, `World`, and every C statement becomes a function
`World → World`.

Conventions of the embedding:

* C `int`, `long` and `time_t` values are `Int`; `iteration++` wraps at 32 bits.
* The ncurses window is the stream of cells written since the last `erase`,
  each cell carrying the attribute in force when it was printed.
* The keyboard is the list of results of the successive `getch` polls
  (`ERR` when nothing is pending; an exhausted list also gives `ERR`).
* The clock is the list of results of the successive `time(NULL)` calls of
  the main loop, one per pass.
-/

namespace CStateMachine

/-! ## Constants -/

/-- Macro `#define FPS 24` -/
def FPS : Int := 24

/-- Macro `#define LINECHARS 40` -/
def LINECHARS : Int := 40

/-- Macro `#define COLUMNWIDTH 5` -/
def COLUMNWIDTH : Int := 5

/-- Enumeration `enum { OFF, ON, MODE1, MODE2, SHUTDOWN }` -/
def OFF : Int := 0

/-- Second enumerator. -/
def ON : Int := 1

/-- Third enumerator. -/
def MODE1 : Int := 2

/-- Fourth enumerator. -/
def MODE2 : Int := 3

/-- Fifth enumerator. -/
def SHUTDOWN : Int := 4

/-- The value `getch` returns when no key is pending (ncurses `ERR`). -/
def ERR : Int := -1

/-- The `int` value of a character constant such as `'i'`. -/
def key (c : Char) : Int := (c.toNat : Int)

/-! ## ncurses attributes and the window -/

/-- The colours named by `init_pair` in `main`. -/
inductive Color where
  | black
  | green
  | yellow
  | red
deriving DecidableEq, Repr

/-- An ncurses attribute word, reduced to the two parts the program uses:
the colour-pair number and the dim bit. -/
structure Attr where
  pair : Nat
  dim : Bool
deriving DecidableEq, Repr

/-- Constant `A_NORMAL`: no bit set, colour pair 0. -/
def A_NORMAL : Attr := ⟨0, false⟩

/-- Constant `A_DIM`: the dim bit alone. -/
def A_DIM : Attr := ⟨0, true⟩

/-- Constant `COLOR_BLACK` is 0 in ncurses. -/
def COLOR_BLACK : Nat := 0

/-- Constant `COLOR_PAIR(n)`: the attribute word selecting pair `n`. -/
def COLOR_PAIR (n : Nat) : Attr := ⟨n, false⟩

/-- One character of the window with the attribute it was printed in. -/
structure Cell where
  ch : Char
  attr : Attr
deriving DecidableEq, Repr

/-- Everything the program reads or writes. -/
structure World where
  /-- global `int state` -/
  state : Int
  /-- global `int iteration` -/
  iteration : Int
  /-- local `previousTime` of `main` -/
  previousTime : Int
  /-- current attribute of `stdscr` -/
  attr : Attr
  /-- cells written to `stdscr` since the last `erase` -/
  screen : List Cell
  /-- what the last `refresh` put on the terminal -/
  shown : List Cell
  /-- colour pairs defined by `init_pair` -/
  pairs : List (Nat × Color × Color)
  /-- input delay of `stdscr` (0 = non-blocking) -/
  delay : Int
  /-- false once `endwin` has run -/
  cursesOn : Bool
  /-- results of the coming `getch` polls -/
  input : List Int
  /-- text written with `printf` -/
  stdout : String
  /-- arguments of the `usleep` calls made so far, oldest first -/
  sleeps : List Int
  /-- Value `some n` once `exit(n)` has been called -/
  exitStatus : Option Int
deriving DecidableEq, Repr

/-! ## Library calls -/

/-- Call `erase()`: empty the window. -/
def erase (w : World) : World := { w with screen := [] }

/-- Call `attrset(a)`: replace the current attribute. -/
def attrset (a : Attr) (w : World) : World := { w with attr := a }

/-- Call `attron(a)`: switch on the bits of `a`; a non-zero colour pair replaces the
current pair, pair 0 leaves it alone. -/
def attron (a : Attr) (w : World) : World :=
  { w with attr := ⟨if a.pair = 0 then w.attr.pair else a.pair, w.attr.dim || a.dim⟩ }

/-- The cells produced by printing `s` under attribute `a`. -/
def cellsOf (a : Attr) (s : List Char) : List Cell := s.map (fun c => ⟨c, a⟩)

/-- Call `printw(s)` for an already formatted text `s`. -/
def printw (s : List Char) (w : World) : World :=
  { w with screen := w.screen ++ cellsOf w.attr s }

/-- Format `%*s`: `s` right-justified in a field of `width` characters. -/
def fmtRight (width : Int) (s : String) : List Char :=
  List.replicate (width.toNat - s.length) ' ' ++ s.toList

/-- Format `%-*s`: `s` left-justified in a field of `width` characters. -/
def fmtLeft (width : Int) (s : String) : List Char :=
  s.toList ++ List.replicate (width.toNat - s.length) ' '

/-- Format `"%-*s %*s"` with widths `COLUMNWIDTH` and `LINECHARS - COLUMNWIDTH`. -/
def menuLine (k label : String) : List Char :=
  fmtLeft COLUMNWIDTH k ++ [' '] ++ fmtRight (LINECHARS - COLUMNWIDTH) label

/-- Call `refresh()`: copy the window to the terminal. -/
def refresh (w : World) : World := { w with shown := w.screen }

/-- Call `timeout(d)`: set the input delay. -/
def timeout (d : Int) (w : World) : World := { w with delay := d }

/-- Call `getch()` in non-blocking mode: the next poll result, `ERR` if none. -/
def getch (w : World) : Int × World :=
  match w.input with
  | [] => (ERR, w)
  | c :: rest => (c, { w with input := rest })

/-- Call `tolower` in the "C" locale (the program never calls `setlocale`). -/
def tolower (c : Int) : Int :=
  if key 'A' ≤ c ∧ c ≤ key 'Z' then c + 32 else c

/-- Call `endwin()`. -/
def endwin (w : World) : World := { w with cursesOn := false }

/-- Call `printf(s)` for a text without conversions. -/
def printf (s : String) (w : World) : World := { w with stdout := w.stdout ++ s }

/-- Call `exit(n)`. -/
def exit (n : Int) (w : World) : World := { w with exitStatus := some n }

/-- Call `usleep(us)`. -/
def usleep (us : Int) (w : World) : World := { w with sleeps := w.sleeps ++ [us] }

/-- C remainder `a % b` on `int` (truncating). -/
def cRem (a b : Int) : Int := Int.tmod a b

/-- Statement `iteration++` on a 32-bit `int`, wrapping in two's complement. -/
def incrInt (x : Int) : Int := (x + 1 + 2 ^ 31) % 2 ^ 32 - 2 ^ 31

/-- Loop `for (int i = lo; i < hi; i++) body`, for a body that does not use `i`. -/
def forRange (i hi : Int) (body : World → World) (w : World) : World :=
  if i < hi then forRange (i + 1) hi body (body w) else w
termination_by (hi - i).toNat
decreasing_by omega

/-! ## The program -/

/-- The body shared by every dimmed rule and bar loop:
`attron(COLOR_PAIR(COLOR_BLACK)); attron(A_DIM); printw("-"); attrset(A_NORMAL);` -/
def dimDash (w : World) : World :=
  attrset A_NORMAL (printw "-".toList (attron A_DIM (attron (COLOR_PAIR COLOR_BLACK) w)))

/-- The body of the highlighted bar loop:
`attrset(COLOR_PAIR(n)); printw("-"); attrset(A_NORMAL);` -/
def colorDash (n : Nat) (w : World) : World :=
  attrset A_NORMAL (printw "-".toList (attrset (COLOR_PAIR n) w))

/-- Function `void header(void)` -/
def header (w : World) : World :=
  let w := erase w
  let w := printw "\n".toList w
  let w := attron (COLOR_PAIR COLOR_BLACK) w
  let w := attron A_DIM w
  let w := printw "C State Machine\n".toList w
  let w := attrset A_NORMAL w
  let w := forRange 0 LINECHARS dimDash w
  printw "\n".toList w

/-- Function `void off(void)` -/
def off (w : World) : World :=
  let w := printw "\n".toList w
  let w := printw (fmtRight LINECHARS "Machine is off\n") w
  let w := printw "\n".toList w
  let w := forRange 0 LINECHARS dimDash w
  let w := printw "\n".toList w
  let w := printw "\n".toList w
  let w := printw (menuLine "(i)" "Turn on\n") w
  let w := printw (menuLine "(x)" "Exit\n") w
  let w := printw "\n".toList w
  let w := forRange 0 LINECHARS dimDash w
  let w := printw "\n".toList w
  let w := refresh w
  let w := timeout 0 w
  let c := (getch w).1
  let w := (getch w).2
  if c ≠ ERR then
    let c := tolower c
    if c = key 'i' then { w with state := ON }
    else if c = key 'x' then { w with state := SHUTDOWN }
    else { w with state := OFF }
  else w

/-- Function `void on(void)` -/
def «on» (w : World) : World :=
  let w := printw "\n".toList w
  let w := printw (fmtRight LINECHARS "Machine is running in Idle mode\n") w
  let w := printw "\n".toList w
  let position := cRem w.iteration LINECHARS
  let w := forRange 0 position (colorDash 1) w
  let w := forRange position LINECHARS dimDash w
  let w := printw "\n".toList w
  let w := printw "\n".toList w
  let w := attrset (COLOR_PAIR 1) w
  let w := printw (menuLine "(i)" "Idle mode\n") w
  let w := attrset A_NORMAL w
  let w := printw (menuLine "(1)" "Mode 1\n") w
  let w := printw (menuLine "(2)" "Mode 2\n") w
  let w := printw (menuLine "(0)" "Turn off\n") w
  let w := printw "\n".toList w
  let w := forRange 0 LINECHARS dimDash w
  let w := printw "\n".toList w
  let w := refresh w
  let w := timeout 0 w
  let c := (getch w).1
  let w := (getch w).2
  if c ≠ ERR then
    if c = key '1' then { w with state := MODE1 }
    else if c = key '2' then { w with state := MODE2 }
    else if c = key '0' then { w with state := OFF }
    else { w with state := ON }
  else w

/-- Function `void mode1(void)` -/
def mode1 (w : World) : World :=
  let w := printw "\n".toList w
  let w := printw (fmtRight LINECHARS "Machine is running in Mode 1\n") w
  let w := printw "\n".toList w
  let position := cRem w.iteration LINECHARS
  let w := forRange 0 position (colorDash 2) w
  let w := forRange position LINECHARS dimDash w
  let w := printw "\n".toList w
  let w := printw "\n".toList w
  let w := printw (menuLine "(i)" "Idle mode\n") w
  let w := attrset (COLOR_PAIR 2) w
  let w := printw (menuLine "(1)" "Mode 1\n") w
  let w := attrset A_NORMAL w
  let w := printw (menuLine "(2)" "Mode 2\n") w
  let w := printw (menuLine "(0)" "Turn off\n") w
  let w := printw "\n".toList w
  let w := forRange 0 LINECHARS dimDash w
  let w := printw "\n".toList w
  let w := refresh w
  let w := timeout 0 w
  let c := (getch w).1
  let w := (getch w).2
  if c ≠ ERR then
    if c = key 'i' then { w with state := ON }
    else if c = key '2' then { w with state := MODE2 }
    else if c = key '0' then { w with state := OFF }
    else { w with state := MODE1 }
  else w

/-- Function `void mode2(void)` -/
def mode2 (w : World) : World :=
  let w := printw "\n".toList w
  let w := printw (fmtRight LINECHARS "Machine is running in Mode 2\n") w
  let w := printw "\n".toList w
  let position := cRem w.iteration LINECHARS
  let w := forRange 0 position (colorDash 3) w
  let w := forRange position LINECHARS dimDash w
  let w := printw "\n".toList w
  let w := printw "\n".toList w
  let w := printw (menuLine "(i)" "Idle mode\n") w
  let w := printw (menuLine "(1)" "Mode 1\n") w
  let w := attrset (COLOR_PAIR 3) w
  let w := printw (menuLine "(2)" "Mode 2\n") w
  let w := attrset A_NORMAL w
  let w := printw (menuLine "(0)" "Turn off\n") w
  let w := printw "\n".toList w
  let w := forRange 0 LINECHARS dimDash w
  let w := printw "\n".toList w
  let w := refresh w
  let w := timeout 0 w
  let c := (getch w).1
  let w := (getch w).2
  if c ≠ ERR then
    if c = key 'i' then { w with state := ON }
    else if c = key '1' then { w with state := MODE1 }
    else if c = key '0' then { w with state := OFF }
    else { w with state := MODE2 }
  else w

/-- Function `void shutdown(void)` -/
def shutdown (w : World) : World :=
  let w := endwin w
  let w := printf "Program terminated\n\n" w
  exit 0 w

/-- The array `states[]` of `main`. -/
def states : List (World → World) := [off, «on», mode1, mode2, shutdown]

/-- Statement `const int frameTime = 1000 / FPS;` -/
def frameTime : Int := Int.tdiv 1000 FPS

/-- The loop `while (elapsedTime >= frameTime) { elapsedTime -= frameTime;
previousTime = currentTime; }`; returns the final `(elapsedTime, previousTime)`. -/
def consume (currentTime elapsedTime previousTime : Int) : Int × Int :=
  if frameTime ≤ elapsedTime then
    consume currentTime (elapsedTime - frameTime) currentTime
  else (elapsedTime, previousTime)
termination_by elapsedTime.toNat
decreasing_by
  have h : frameTime = 41 := by decide
  omega

/-- The start of `main`, up to the first `time(NULL)`, whose result is `t0`:
`initscr`, `start_color`, three `init_pair`, `nodelay`, `noecho`.  `keys` are
the results of the `getch` polls to come. -/
def init (keys : List Int) (t0 : Int) : World :=
  { state := OFF
    iteration := 0
    previousTime := t0
    attr := A_NORMAL
    screen := []
    shown := []
    pairs := [(1, Color.green, Color.black), (2, Color.yellow, Color.black),
              (3, Color.red, Color.black)]
    delay := 0
    cursesOn := true
    input := keys
    stdout := ""
    sleeps := []
    exitStatus := none }

/-- Statement `fn = states[state]; fn();` — `none` when the index is outside the array. -/
def dispatch (w : World) : Option World :=
  if 0 ≤ w.state then (states.get? w.state.toNat).map (fun fn => fn w) else none

/-- One pass of `while (1)` in `main`, `currentTime` being the result of this
pass's `time(NULL)`.  After `exit` nothing more of the pass runs. -/
def loopPass (currentTime : Int) (w : World) : Option World :=
  let w := { w with iteration := incrInt w.iteration }
  let elapsedTime := (currentTime - w.previousTime) * 1000
  let r := consume currentTime elapsedTime w.previousTime
  let elapsedTime := r.1
  let w := { w with previousTime := r.2 }
  let w := header w
  (dispatch w).map (fun w =>
    if w.exitStatus.isSome then w else usleep ((frameTime - elapsedTime) * 1000) w)

/-- The loop `while (1)` run on the clock samples `clock`, one per pass; it
stops when the process has exited. -/
def mainLoop : List Int → World → Option World
  | [], w => some w
  | t :: clock, w =>
    if w.exitStatus.isSome then some w else (loopPass t w).bind (mainLoop clock)

/-- Function `main` run on the keyboard polls `keys`, first clock sample `t0` and the
per-pass samples `clock`. -/
def main (keys : List Int) (t0 : Int) (clock : List Int) : Option World :=
  mainLoop clock (init keys t0)

/-! ## Reading the window -/

/-- The cells before the first newline. -/
def takeLine : List Cell → List Cell
  | [] => []
  | c :: cs => if c.ch = '\n' then [] else c :: takeLine cs

/-- The cells after the first newline. -/
def dropLine : List Cell → List Cell
  | [] => []
  | c :: cs => if c.ch = '\n' then cs else dropLine cs

/-- Line `n` (from 0) of a stream of cells. -/
def lineAt : Nat → List Cell → List Cell
  | 0, cs => takeLine cs
  | n + 1, cs => lineAt n (dropLine cs)

/-- The progress bar of a frame: `header` prints three lines (blank, title,
rule) and the handler then prints a blank line, the status line and a blank
line, so the bar is line 6 of the window. -/
def progressBar (w : World) : List Cell := lineAt 6 w.screen

/-- Number of cells of a bar drawn in a colour pair other than the default one. -/
def fillLength (bar : List Cell) : Nat := bar.countP (fun c => c.attr.pair ≠ 0)

/-- A dash in the dimmed default colour. -/
def dimCell : Cell := ⟨'-', A_DIM⟩

/-- A dash in colour pair `n`. -/
def colorCell (n : Nat) : Cell := ⟨'-', COLOR_PAIR n⟩

/-- The bar drawn in the frame that starts from `w`: `header(); fn();`. -/
def frameBar (w : World) : Option (List Cell) := (dispatch (header w)).map progressBar

/-- The fill length of the bar drawn in the frame that starts from `w`. -/
def frameFill (w : World) : Option Nat := (frameBar w).map fillLength

/-- A window given line by line: each line with the attribute of the newline
that ends it. -/
def joinLines : List (List Cell × Attr) → List Cell
  | [] => []
  | l :: ls => l.1 ++ ⟨'\n', l.2⟩ :: joinLines ls

/-- A run of cells without a newline. -/
def lineFree (l : List Cell) : Prop := ∀ c ∈ l, c.ch ≠ '\n'

/-- One menu line, without its newline, under attribute `a`. -/
def menuCells (a : Attr) (k label : String) : List Cell × Attr :=
  (cellsOf a (fmtLeft COLUMNWIDTH k ++ [' '] ++ fmtRight (LINECHARS - COLUMNWIDTH - 1) label), a)

/-- The lines of a whole frame: the three lines of `header` (drawn from entry
attribute `a0`), then the handler's status line, bar, menu and closing rule. -/
def frameLines (a0 : Attr) (status : String) (bar : List Cell)
    (menu : List (List Cell × Attr)) : List (List Cell × Attr) :=
  [([], a0),
   (cellsOf ⟨a0.pair, true⟩ "C State Machine".toList, ⟨a0.pair, true⟩),
   (List.replicate 40 dimCell, A_NORMAL),
   ([], A_NORMAL),
   (cellsOf A_NORMAL (fmtRight (LINECHARS - 1) status), A_NORMAL),
   ([], A_NORMAL),
   (bar, A_NORMAL),
   ([], A_NORMAL)] ++ menu ++ [([], A_NORMAL), (List.replicate 40 dimCell, A_NORMAL)]

/-- The bar `on`, `mode1` and `mode2` draw in colour pair `k` at `iteration`. -/
def runningBar (k : Nat) (iteration : Int) : List Cell :=
  List.replicate (cRem iteration LINECHARS).toNat (colorCell k)
    ++ List.replicate (LINECHARS - cRem iteration LINECHARS).toNat dimCell

/-- The state of standard output in a run: nothing before `exit`, the
termination message after it. -/
def stdoutOk (w : World) : Prop :=
  (w.exitStatus = none ∧ w.stdout = "")
    ∨ (w.exitStatus = some 0 ∧ w.stdout = "Program terminated\n\n")

/-- The state variable holds one of the five enumerators. -/
def stateOk (w : World) : Prop :=
  w.state = OFF ∨ w.state = ON ∨ w.state = MODE1 ∨ w.state = MODE2 ∨ w.state = SHUTDOWN

/-- The foreground and background colour that `init_pair` gave pair `k`. -/
def pairColors (w : World) (k : Nat) : Option (Color × Color) :=
  (w.pairs.find? (fun p => p.1 = k)).map (fun p => p.2)

/-- The cells the handler wrote in the frame that starts from `w`: what the
window holds after `header(); fn();` beyond what `header` put there. -/
def handlerCells (w : World) : Option (List Cell) :=
  (dispatch (header w)).map (fun w1 => w1.screen.drop (header w).screen.length)

/-- The three lines `header` draws from entry attribute `a0`: a blank line,
the title, the rule. -/
def headerLines (a0 : Attr) : List (List Cell × Attr) :=
  [([], a0),
   (cellsOf ⟨a0.pair, true⟩ "C State Machine".toList, ⟨a0.pair, true⟩),
   (List.replicate 40 dimCell, A_NORMAL)]

/-- The lines a handler draws after `header`: blank, status, blank, bar, blank,
the menu, blank, closing rule. -/
def bodyLines (status : String) (bar : List Cell)
    (menu : List (List Cell × Attr)) : List (List Cell × Attr) :=
  [([], A_NORMAL),
   (cellsOf A_NORMAL (fmtRight (LINECHARS - 1) status), A_NORMAL),
   ([], A_NORMAL),
   (bar, A_NORMAL),
   ([], A_NORMAL)] ++ menu ++ [([], A_NORMAL), (List.replicate 40 dimCell, A_NORMAL)]

/-! ## Loops -/

theorem forRange_iterate (body : World → World) :
    ∀ (n : Nat) (i hi : Int) (w : World), (hi - i).toNat = n →
      forRange i hi body w = body^[n] w := by
  intro n
  induction n with
  | zero =>
    intro i hi w h
    rw [forRange, if_neg (by omega)]
    rfl
  | succ n ih =>
    intro i hi w h
    rw [forRange, if_pos (by omega), ih (i + 1) hi (body w) (by omega)]
    rfl

theorem forRange_eq (body : World → World) (i hi : Int) (w : World) :
    forRange i hi body w = body^[(hi - i).toNat] w :=
  forRange_iterate body _ i hi w rfl

theorem iterate_inv {α : Type} (f : World → α) (body : World → World)
    (hb : ∀ w, f (body w) = f w) (n : Nat) (w : World) : f (body^[n] w) = f w := by
  induction n generalizing w with
  | zero => rfl
  | succ n ih => rw [Function.iterate_succ_apply, ih, hb]

theorem forRange_inv {α : Type} (f : World → α) (body : World → World)
    (hb : ∀ w, f (body w) = f w) (i hi : Int) (w : World) :
    f (forRange i hi body w) = f w := by
  rw [forRange_eq]; exact iterate_inv f body hb _ w

@[simp] theorem forRange_dimDash_input (i hi : Int) (w : World) :
    (forRange i hi dimDash w).input = w.input :=
  forRange_inv (fun w => w.input) dimDash (fun _ => rfl) i hi w

@[simp] theorem forRange_colorDash_input (k : Nat) (i hi : Int) (w : World) :
    (forRange i hi (colorDash k) w).input = w.input :=
  forRange_inv (fun w => w.input) (colorDash k) (fun _ => rfl) i hi w

@[simp] theorem forRange_dimDash_state (i hi : Int) (w : World) :
    (forRange i hi dimDash w).state = w.state :=
  forRange_inv (fun w => w.state) dimDash (fun _ => rfl) i hi w

@[simp] theorem forRange_colorDash_state (k : Nat) (i hi : Int) (w : World) :
    (forRange i hi (colorDash k) w).state = w.state :=
  forRange_inv (fun w => w.state) (colorDash k) (fun _ => rfl) i hi w

@[simp] theorem forRange_dimDash_iteration (i hi : Int) (w : World) :
    (forRange i hi dimDash w).iteration = w.iteration :=
  forRange_inv (fun w => w.iteration) dimDash (fun _ => rfl) i hi w

@[simp] theorem forRange_colorDash_iteration (k : Nat) (i hi : Int) (w : World) :
    (forRange i hi (colorDash k) w).iteration = w.iteration :=
  forRange_inv (fun w => w.iteration) (colorDash k) (fun _ => rfl) i hi w

@[simp] theorem forRange_dimDash_stdout (i hi : Int) (w : World) :
    (forRange i hi dimDash w).stdout = w.stdout :=
  forRange_inv (fun w => w.stdout) dimDash (fun _ => rfl) i hi w

@[simp] theorem forRange_colorDash_stdout (k : Nat) (i hi : Int) (w : World) :
    (forRange i hi (colorDash k) w).stdout = w.stdout :=
  forRange_inv (fun w => w.stdout) (colorDash k) (fun _ => rfl) i hi w

@[simp] theorem forRange_dimDash_exitStatus (i hi : Int) (w : World) :
    (forRange i hi dimDash w).exitStatus = w.exitStatus :=
  forRange_inv (fun w => w.exitStatus) dimDash (fun _ => rfl) i hi w

@[simp] theorem forRange_colorDash_exitStatus (k : Nat) (i hi : Int) (w : World) :
    (forRange i hi (colorDash k) w).exitStatus = w.exitStatus :=
  forRange_inv (fun w => w.exitStatus) (colorDash k) (fun _ => rfl) i hi w

@[simp] theorem forRange_dimDash_sleeps (i hi : Int) (w : World) :
    (forRange i hi dimDash w).sleeps = w.sleeps :=
  forRange_inv (fun w => w.sleeps) dimDash (fun _ => rfl) i hi w

@[simp] theorem forRange_colorDash_sleeps (k : Nat) (i hi : Int) (w : World) :
    (forRange i hi (colorDash k) w).sleeps = w.sleeps :=
  forRange_inv (fun w => w.sleeps) (colorDash k) (fun _ => rfl) i hi w

@[simp] theorem forRange_dimDash_previousTime (i hi : Int) (w : World) :
    (forRange i hi dimDash w).previousTime = w.previousTime :=
  forRange_inv (fun w => w.previousTime) dimDash (fun _ => rfl) i hi w

@[simp] theorem forRange_colorDash_previousTime (k : Nat) (i hi : Int) (w : World) :
    (forRange i hi (colorDash k) w).previousTime = w.previousTime :=
  forRange_inv (fun w => w.previousTime) (colorDash k) (fun _ => rfl) i hi w

theorem iterate_dimDash (n : Nat) (w : World) (h : w.attr = A_NORMAL) :
    dimDash^[n] w = { w with screen := w.screen ++ List.replicate n dimCell } := by
  induction n generalizing w with
  | zero => simp
  | succ n ih =>
    rw [Function.iterate_succ_apply, ih (dimDash w) rfl]
    cases w
    simp only [] at h
    subst h
    simp [dimDash, attrset, printw, attron, cellsOf, A_NORMAL, A_DIM, COLOR_PAIR, COLOR_BLACK,
      dimCell, List.replicate_succ]

theorem iterate_colorDash (k n : Nat) (w : World) (h : w.attr = A_NORMAL) :
    (colorDash k)^[n] w = { w with screen := w.screen ++ List.replicate n (colorCell k) } := by
  induction n generalizing w with
  | zero => simp
  | succ n ih =>
    rw [Function.iterate_succ_apply, ih (colorDash k w) rfl]
    cases w
    simp only [] at h
    subst h
    simp [colorDash, attrset, printw, cellsOf, A_NORMAL, COLOR_PAIR, colorCell,
      List.replicate_succ]

theorem forRange_dimDash (i hi : Int) (w : World) (h : w.attr = A_NORMAL) :
    forRange i hi dimDash w
      = { w with screen := w.screen ++ List.replicate (hi - i).toNat dimCell } := by
  rw [forRange_eq, iterate_dimDash _ _ h]

theorem forRange_colorDash (k : Nat) (i hi : Int) (w : World) (h : w.attr = A_NORMAL) :
    forRange i hi (colorDash k) w
      = { w with screen := w.screen ++ List.replicate (hi - i).toNat (colorCell k) } := by
  rw [forRange_eq, iterate_colorDash _ _ _ h]

/-! ## `header` and `getch` -/

theorem header_eq (w : World) :
    header w = { w with
      screen := ⟨'\n', w.attr⟩ :: (cellsOf ⟨w.attr.pair, true⟩ "C State Machine".toList
        ++ ⟨'\n', ⟨w.attr.pair, true⟩⟩ :: (List.replicate 40 dimCell ++ [⟨'\n', A_NORMAL⟩]))
      attr := A_NORMAL } := by
  unfold header
  simp only []
  rw [forRange_dimDash _ _ _ rfl]
  simp [printw, attrset, attron, erase, cellsOf, A_NORMAL, A_DIM, COLOR_PAIR, LINECHARS,
    COLOR_BLACK]

theorem header_attr (w : World) : (header w).attr = A_NORMAL := by
  rw [header_eq]

theorem header_iteration (w : World) : (header w).iteration = w.iteration := by
  rw [header_eq]

theorem header_state (w : World) : (header w).state = w.state := by
  rw [header_eq]

theorem header_input (w : World) : (header w).input = w.input := by
  rw [header_eq]

theorem header_stdout (w : World) : (header w).stdout = w.stdout := by
  rw [header_eq]

theorem header_exitStatus (w : World) : (header w).exitStatus = w.exitStatus := by
  rw [header_eq]

theorem header_sleeps (w : World) : (header w).sleeps = w.sleeps := by
  rw [header_eq]

theorem getch_fst_congr (w1 w2 : World) (h : w1.input = w2.input) :
    (getch w1).1 = (getch w2).1 := by
  unfold getch
  rw [h]
  cases w2.input <;> rfl

@[simp] theorem getch_state (w : World) : (getch w).2.state = w.state := by
  unfold getch; split <;> rfl

@[simp] theorem getch_screen (w : World) : (getch w).2.screen = w.screen := by
  unfold getch; split <;> rfl

@[simp] theorem getch_stdout (w : World) : (getch w).2.stdout = w.stdout := by
  unfold getch; split <;> rfl

@[simp] theorem getch_exitStatus (w : World) : (getch w).2.exitStatus = w.exitStatus := by
  unfold getch; split <;> rfl

@[simp] theorem getch_iteration (w : World) : (getch w).2.iteration = w.iteration := by
  unfold getch; split <;> rfl

@[simp] theorem getch_sleeps (w : World) : (getch w).2.sleeps = w.sleeps := by
  unfold getch; split <;> rfl

/-! ## What a handler does to the globals -/

theorem off_state (w : World) :
    (off w).state =
      if (getch w).1 ≠ ERR then
        if tolower (getch w).1 = key 'i' then ON
        else if tolower (getch w).1 = key 'x' then SHUTDOWN
        else OFF
      else w.state := by
  unfold off
  simp only []
  rw [getch_fst_congr _ w (by simp [timeout, refresh, printw])]
  split_ifs <;> simp [timeout, refresh, printw]

theorem on_state (w : World) :
    («on» w).state =
      if (getch w).1 ≠ ERR then
        if (getch w).1 = key '1' then MODE1
        else if (getch w).1 = key '2' then MODE2
        else if (getch w).1 = key '0' then OFF
        else ON
      else w.state := by
  unfold «on»
  simp only []
  rw [getch_fst_congr _ w (by simp [timeout, refresh, printw, attrset])]
  split_ifs <;> simp [timeout, refresh, printw, attrset]

theorem mode1_state (w : World) :
    (mode1 w).state =
      if (getch w).1 ≠ ERR then
        if (getch w).1 = key 'i' then ON
        else if (getch w).1 = key '2' then MODE2
        else if (getch w).1 = key '0' then OFF
        else MODE1
      else w.state := by
  unfold mode1
  simp only []
  rw [getch_fst_congr _ w (by simp [timeout, refresh, printw, attrset])]
  split_ifs <;> simp [timeout, refresh, printw, attrset]

theorem mode2_state (w : World) :
    (mode2 w).state =
      if (getch w).1 ≠ ERR then
        if (getch w).1 = key 'i' then ON
        else if (getch w).1 = key '1' then MODE1
        else if (getch w).1 = key '0' then OFF
        else MODE2
      else w.state := by
  unfold mode2
  simp only []
  rw [getch_fst_congr _ w (by simp [timeout, refresh, printw, attrset])]
  split_ifs <;> simp [timeout, refresh, printw, attrset]

theorem off_stdout (w : World) : (off w).stdout = w.stdout ∧ (off w).exitStatus = w.exitStatus := by
  unfold off
  simp only []
  split_ifs <;> simp [timeout, refresh, printw]

theorem on_stdout (w : World) :
    («on» w).stdout = w.stdout ∧ («on» w).exitStatus = w.exitStatus := by
  unfold «on»
  simp only []
  split_ifs <;> simp [timeout, refresh, printw, attrset]

theorem mode1_stdout (w : World) :
    (mode1 w).stdout = w.stdout ∧ (mode1 w).exitStatus = w.exitStatus := by
  unfold mode1
  simp only []
  split_ifs <;> simp [timeout, refresh, printw, attrset]

theorem mode2_stdout (w : World) :
    (mode2 w).stdout = w.stdout ∧ (mode2 w).exitStatus = w.exitStatus := by
  unfold mode2
  simp only []
  split_ifs <;> simp [timeout, refresh, printw, attrset]

theorem dispatch_off (w : World) (h : w.state = OFF) : dispatch w = some (off w) := by
  simp [dispatch, h, OFF, states]

theorem dispatch_on (w : World) (h : w.state = ON) : dispatch w = some («on» w) := by
  simp [dispatch, h, ON, states]

theorem dispatch_mode1 (w : World) (h : w.state = MODE1) : dispatch w = some (mode1 w) := by
  simp [dispatch, h, MODE1, states]

theorem dispatch_mode2 (w : World) (h : w.state = MODE2) : dispatch w = some (mode2 w) := by
  simp [dispatch, h, MODE2, states]

theorem dispatch_shutdown (w : World) (h : w.state = SHUTDOWN) :
    dispatch w = some (shutdown w) := by
  simp [dispatch, h, SHUTDOWN, states]

theorem dispatch_cases (w w1 : World) (h : dispatch w = some w1) :
    (w.state = OFF ∧ w1 = off w) ∨ (w.state = ON ∧ w1 = «on» w) ∨ (w.state = MODE1 ∧ w1 = mode1 w)
      ∨ (w.state = MODE2 ∧ w1 = mode2 w) ∨ (w.state = SHUTDOWN ∧ w1 = shutdown w) := by
  unfold dispatch at h
  split at h
  · rename_i h0
    obtain ⟨n, hn⟩ := Int.eq_ofNat_of_zero_le h0
    rw [hn] at h
    simp only [Int.toNat_ofNat] at h
    match n, hn with
    | 0, hn => simp [states] at h; simp [hn, OFF, h]
    | 1, hn => simp [states] at h; simp [hn, ON, OFF, h]
    | 2, hn => simp [states] at h; simp [hn, ON, OFF, MODE1, h]
    | 3, hn => simp [states] at h; simp [hn, ON, OFF, MODE1, MODE2, h]
    | 4, hn => simp [states] at h; simp [hn, ON, OFF, MODE1, MODE2, SHUTDOWN, h]
    | n + 5, hn => simp [states] at h
  · simp at h

/-! ## What a frame puts in the window -/

set_option maxRecDepth 8000 in
theorem off_frame (w : World) :
    (off (header w)).screen = joinLines (frameLines w.attr "Machine is off"
      (List.replicate 40 dimCell)
      [menuCells A_NORMAL "(i)" "Turn on", menuCells A_NORMAL "(x)" "Exit"]) := by
  unfold off
  simp only []
  have hk : ∀ (c : Int) (w1 : World),
      (if c ≠ ERR then
        if tolower c = key 'i' then { w1 with state := ON }
        else if tolower c = key 'x' then { w1 with state := SHUTDOWN }
        else { w1 with state := OFF }
      else w1).screen = w1.screen := by
    intro c w1
    split_ifs <;> rfl
  rw [hk, getch_screen, header_eq]
  simp [forRange_dimDash, printw, attrset, refresh, timeout, cellsOf, LINECHARS, joinLines,
    frameLines, menuCells, menuLine, fmtRight, fmtLeft, COLUMNWIDTH, String.length]

set_option maxRecDepth 8000 in
theorem on_frame (w : World) :
    («on» (header w)).screen = joinLines (frameLines w.attr "Machine is running in Idle mode"
      (runningBar 1 w.iteration)
      [menuCells (COLOR_PAIR 1) "(i)" "Idle mode", menuCells A_NORMAL "(1)" "Mode 1",
       menuCells A_NORMAL "(2)" "Mode 2", menuCells A_NORMAL "(0)" "Turn off"]) := by
  unfold «on»
  simp only []
  have hk : ∀ (c : Int) (w1 : World),
      (if c ≠ ERR then
        if c = key '1' then { w1 with state := MODE1 }
        else if c = key '2' then { w1 with state := MODE2 }
        else if c = key '0' then { w1 with state := OFF }
        else { w1 with state := ON }
      else w1).screen = w1.screen := by
    intro c w1
    split_ifs <;> rfl
  rw [hk, getch_screen, header_eq]
  simp [forRange_dimDash, forRange_colorDash, printw, attrset, refresh, timeout, cellsOf,
    LINECHARS, joinLines, frameLines, menuCells, menuLine, fmtRight, fmtLeft, COLUMNWIDTH,
    String.length, runningBar]

set_option maxRecDepth 8000 in
theorem mode1_frame (w : World) :
    (mode1 (header w)).screen = joinLines (frameLines w.attr "Machine is running in Mode 1"
      (runningBar 2 w.iteration)
      [menuCells A_NORMAL "(i)" "Idle mode", menuCells (COLOR_PAIR 2) "(1)" "Mode 1",
       menuCells A_NORMAL "(2)" "Mode 2", menuCells A_NORMAL "(0)" "Turn off"]) := by
  unfold mode1
  simp only []
  have hk : ∀ (c : Int) (w1 : World),
      (if c ≠ ERR then
        if c = key 'i' then { w1 with state := ON }
        else if c = key '2' then { w1 with state := MODE2 }
        else if c = key '0' then { w1 with state := OFF }
        else { w1 with state := MODE1 }
      else w1).screen = w1.screen := by
    intro c w1
    split_ifs <;> rfl
  rw [hk, getch_screen, header_eq]
  simp [forRange_dimDash, forRange_colorDash, printw, attrset, refresh, timeout, cellsOf,
    LINECHARS, joinLines, frameLines, menuCells, menuLine, fmtRight, fmtLeft, COLUMNWIDTH,
    String.length, runningBar]

set_option maxRecDepth 8000 in
theorem mode2_frame (w : World) :
    (mode2 (header w)).screen = joinLines (frameLines w.attr "Machine is running in Mode 2"
      (runningBar 3 w.iteration)
      [menuCells A_NORMAL "(i)" "Idle mode", menuCells A_NORMAL "(1)" "Mode 1",
       menuCells (COLOR_PAIR 3) "(2)" "Mode 2", menuCells A_NORMAL "(0)" "Turn off"]) := by
  unfold mode2
  simp only []
  have hk : ∀ (c : Int) (w1 : World),
      (if c ≠ ERR then
        if c = key 'i' then { w1 with state := ON }
        else if c = key '1' then { w1 with state := MODE1 }
        else if c = key '0' then { w1 with state := OFF }
        else { w1 with state := MODE2 }
      else w1).screen = w1.screen := by
    intro c w1
    split_ifs <;> rfl
  rw [hk, getch_screen, header_eq]
  simp [forRange_dimDash, forRange_colorDash, printw, attrset, refresh, timeout, cellsOf,
    LINECHARS, joinLines, frameLines, menuCells, menuLine, fmtRight, fmtLeft, COLUMNWIDTH,
    String.length, runningBar]

/-! ## Reading the bar off a frame -/

theorem takeLine_line (l rest : List Cell) (a : Attr) (hl : lineFree l) :
    takeLine (l ++ ⟨'\n', a⟩ :: rest) = l := by
  induction l with
  | nil => simp [takeLine]
  | cons c l ih =>
    have hc : c.ch ≠ '\n' := hl c (List.mem_cons_self _ _)
    have hl2 : lineFree l := fun d hd => hl d (List.mem_cons_of_mem _ hd)
    simp [takeLine, hc, ih hl2]

theorem dropLine_line (l rest : List Cell) (a : Attr) (hl : lineFree l) :
    dropLine (l ++ ⟨'\n', a⟩ :: rest) = rest := by
  induction l with
  | nil => simp [dropLine]
  | cons c l ih =>
    have hc : c.ch ≠ '\n' := hl c (List.mem_cons_self _ _)
    have hl2 : lineFree l := fun d hd => hl d (List.mem_cons_of_mem _ hd)
    simp [dropLine, hc, ih hl2]

theorem lineAt_zero_join (l : List Cell × Attr) (ls : List (List Cell × Attr))
    (hl : lineFree l.1) : lineAt 0 (joinLines (l :: ls)) = l.1 := by
  simp [lineAt, joinLines, takeLine_line _ _ _ hl]

theorem lineAt_succ_join (n : Nat) (l : List Cell × Attr) (ls : List (List Cell × Attr))
    (hl : lineFree l.1) : lineAt (n + 1) (joinLines (l :: ls)) = lineAt n (joinLines ls) := by
  simp [lineAt, joinLines, dropLine_line _ _ _ hl]

theorem lineFree_nil : lineFree [] := by
  intro c hc; cases hc

theorem lineFree_replicate (n : Nat) (c : Cell) (hc : c.ch ≠ '\n') :
    lineFree (List.replicate n c) := by
  intro d hd
  rw [(List.mem_replicate.1 hd).2]; exact hc

theorem lineFree_append (l1 l2 : List Cell) (h1 : lineFree l1) (h2 : lineFree l2) :
    lineFree (l1 ++ l2) := by
  intro d hd
  rcases List.mem_append.1 hd with h | h
  · exact h1 d h
  · exact h2 d h

theorem lineFree_cellsOf (a : Attr) (s : List Char) (hs : ∀ c ∈ s, c ≠ '\n') :
    lineFree (cellsOf a s) := by
  intro d hd
  simp only [cellsOf, List.mem_map] at hd
  obtain ⟨c, hc, rfl⟩ := hd
  exact hs c hc

theorem lineFree_runningBar (k : Nat) (n : Int) : lineFree (runningBar k n) :=
  lineFree_append _ _ (lineFree_replicate _ _ (by simp [colorCell]))
    (lineFree_replicate _ _ (by decide))

theorem lineAt_bar (a0 : Attr) (status : String) (bar : List Cell)
    (menu : List (List Cell × Attr)) (hs : ∀ c ∈ fmtRight (LINECHARS - 1) status, c ≠ '\n')
    (hb : lineFree bar) :
    lineAt 6 (joinLines (frameLines a0 status bar menu)) = bar := by
  unfold frameLines
  simp only [List.cons_append, List.nil_append]
  rw [lineAt_succ_join _ _ _ lineFree_nil,
    lineAt_succ_join _ _ _ (lineFree_cellsOf _ _ (by decide)),
    lineAt_succ_join _ _ _ (lineFree_replicate _ _ (by decide)),
    lineAt_succ_join _ _ _ lineFree_nil,
    lineAt_succ_join _ _ _ (lineFree_cellsOf _ _ hs),
    lineAt_succ_join _ _ _ lineFree_nil,
    lineAt_zero_join _ _ hb]

theorem bar_off (w : World) : progressBar (off (header w)) = List.replicate 40 dimCell := by
  unfold progressBar
  rw [off_frame]
  exact lineAt_bar _ _ _ _ (by decide) (lineFree_replicate _ _ (by decide))

theorem bar_on (w : World) : progressBar («on» (header w)) = runningBar 1 w.iteration := by
  unfold progressBar
  rw [on_frame]
  exact lineAt_bar _ _ _ _ (by decide) (lineFree_runningBar _ _)

theorem bar_mode1 (w : World) : progressBar (mode1 (header w)) = runningBar 2 w.iteration := by
  unfold progressBar
  rw [mode1_frame]
  exact lineAt_bar _ _ _ _ (by decide) (lineFree_runningBar _ _)

theorem bar_mode2 (w : World) : progressBar (mode2 (header w)) = runningBar 3 w.iteration := by
  unfold progressBar
  rw [mode2_frame]
  exact lineAt_bar _ _ _ _ (by decide) (lineFree_runningBar _ _)

theorem frameBar_off (w : World) (h : w.state = OFF) :
    frameBar w = some (List.replicate 40 dimCell) := by
  unfold frameBar
  rw [dispatch_off _ (by rw [header_state]; exact h), Option.map_some', bar_off]

theorem frameBar_on (w : World) (h : w.state = ON) :
    frameBar w = some (runningBar 1 w.iteration) := by
  unfold frameBar
  rw [dispatch_on _ (by rw [header_state]; exact h), Option.map_some', bar_on]

theorem frameBar_mode1 (w : World) (h : w.state = MODE1) :
    frameBar w = some (runningBar 2 w.iteration) := by
  unfold frameBar
  rw [dispatch_mode1 _ (by rw [header_state]; exact h), Option.map_some', bar_mode1]

theorem frameBar_mode2 (w : World) (h : w.state = MODE2) :
    frameBar w = some (runningBar 3 w.iteration) := by
  unfold frameBar
  rw [dispatch_mode2 _ (by rw [header_state]; exact h), Option.map_some', bar_mode2]

/-! ## Key codes and bar arithmetic -/

theorem key_values :
    key 'i' = 105 ∧ key 'I' = 73 ∧ key 'x' = 120 ∧ key 'X' = 88 ∧ key '0' = 48 ∧ key '1' = 49
      ∧ key '2' = 50 ∧ key 'A' = 65 ∧ key 'Z' = 90 := by
  decide

theorem tolower_eq (c : Int) : tolower c = if 65 ≤ c ∧ c ≤ 90 then c + 32 else c := by
  unfold tolower
  rw [key_values.2.2.2.2.2.2.2.1, key_values.2.2.2.2.2.2.2.2]

theorem cRem_of_nonneg (n : Int) (h : 0 ≤ n) : cRem n LINECHARS = n % 40 := by
  unfold cRem LINECHARS
  exact Int.tmod_eq_emod h (by decide)

theorem fillLength_append (l1 l2 : List Cell) :
    fillLength (l1 ++ l2) = fillLength l1 + fillLength l2 := by
  unfold fillLength
  exact List.countP_append _ _ _

theorem fillLength_dim (n : Nat) : fillLength (List.replicate n dimCell) = 0 := by
  unfold fillLength
  rw [List.countP_eq_zero]
  intro c hc
  rw [(List.mem_replicate.1 hc).2]
  decide

theorem fillLength_color (k n : Nat) (hk : k ≠ 0) :
    fillLength (List.replicate n (colorCell k)) = n := by
  unfold fillLength
  rw [List.countP_eq_length.2, List.length_replicate]
  intro c hc
  rw [(List.mem_replicate.1 hc).2]
  simpa [colorCell, COLOR_PAIR] using hk

theorem fillLength_runningBar (k : Nat) (n : Int) (hk : k ≠ 0) :
    fillLength (runningBar k n) = (cRem n LINECHARS).toNat := by
  unfold runningBar
  rw [fillLength_append, fillLength_dim, fillLength_color _ _ hk, Nat.add_zero]

theorem count_runningBar (k : Nat) (n : Int) :
    (runningBar k n).count (colorCell k) = (cRem n LINECHARS).toNat := by
  unfold runningBar
  rw [List.count_append, List.count_replicate_self, List.count_replicate]
  simp [colorCell, dimCell, COLOR_PAIR, A_DIM]

theorem length_runningBar (k : Nat) (n : Int) (h : 0 ≤ n) : (runningBar k n).length = 40 := by
  unfold runningBar
  rw [List.length_append, List.length_replicate, List.length_replicate, cRem_of_nonneg n h]
  unfold LINECHARS
  omega

theorem frameBar_running (w : World)
    (hs : w.state = ON ∨ w.state = MODE1 ∨ w.state = MODE2) :
    ∃ k, (w.state = ON ∧ k = 1 ∨ w.state = MODE1 ∧ k = 2 ∨ w.state = MODE2 ∧ k = 3)
      ∧ frameBar w = some (runningBar k w.iteration) := by
  rcases hs with h | h | h
  · exact ⟨1, Or.inl ⟨h, rfl⟩, frameBar_on w h⟩
  · exact ⟨2, Or.inr (Or.inl ⟨h, rfl⟩), frameBar_mode1 w h⟩
  · exact ⟨3, Or.inr (Or.inr ⟨h, rfl⟩), frameBar_mode2 w h⟩

theorem frameFill_running (w : World)
    (hs : w.state = ON ∨ w.state = MODE1 ∨ w.state = MODE2) :
    frameFill w = some (cRem w.iteration LINECHARS).toNat := by
  obtain ⟨k, hk, hb⟩ := frameBar_running w hs
  have hk0 : k ≠ 0 := by omega
  unfold frameFill
  rw [hb, Option.map_some', fillLength_runningBar _ _ hk0]

theorem frameFill_off (w : World) (hs : w.state = OFF) : frameFill w = some 0 := by
  unfold frameFill
  rw [frameBar_off w hs, Option.map_some', fillLength_dim]

/-! ## Runs of `main` -/

theorem shutdown_fields (w : World) :
    (shutdown w).input = w.input ∧ (shutdown w).stdout = w.stdout ++ "Program terminated\n\n"
      ∧ (shutdown w).exitStatus = some 0 ∧ (shutdown w).sleeps = w.sleeps
      ∧ (shutdown w).screen = w.screen ∧ (shutdown w).shown = w.shown := by
  simp [shutdown, exit, printf, endwin]

theorem mainLoop_exited (clock : List Int) (w : World) (h : w.exitStatus.isSome = true) :
    mainLoop clock w = some w := by
  cases clock with
  | nil => rfl
  | cons t clock => simp [mainLoop, h]

theorem frame_stdoutOk (w0 w2 : World) (e : Int) (hd : dispatch (header w0) = some w2)
    (hx : w0.exitStatus = none) (hs : w0.stdout = "") :
    stdoutOk (if w2.exitStatus.isSome = true then w2 else usleep e w2) := by
  have hx0 : (header w0).exitStatus = none := (header_exitStatus w0).trans hx
  have hs0 : (header w0).stdout = "" := (header_stdout w0).trans hs
  have keep : ∀ w3 : World, w3.exitStatus = none → w3.stdout = "" →
      stdoutOk (if w3.exitStatus.isSome = true then w3 else usleep e w3) := by
    intro w3 h1 h2
    left
    simp [h1, h2, usleep]
  rcases dispatch_cases _ _ hd with ⟨_, rfl⟩ | ⟨_, rfl⟩ | ⟨_, rfl⟩ | ⟨_, rfl⟩ | ⟨_, rfl⟩
  · exact keep _ ((off_stdout _).2.trans hx0) ((off_stdout _).1.trans hs0)
  · exact keep _ ((on_stdout _).2.trans hx0) ((on_stdout _).1.trans hs0)
  · exact keep _ ((mode1_stdout _).2.trans hx0) ((mode1_stdout _).1.trans hs0)
  · exact keep _ ((mode2_stdout _).2.trans hx0) ((mode2_stdout _).1.trans hs0)
  · right
    have hf := shutdown_fields (header w0)
    rw [hs0] at hf
    simp [hf.2.2.1, hf.2.1]

theorem loopPass_stdoutOk (t : Int) (w w1 : World) (h : loopPass t w = some w1)
    (hx : w.exitStatus = none) (hs : w.stdout = "") : stdoutOk w1 := by
  unfold loopPass at h
  simp only [Option.map_eq_some'] at h
  obtain ⟨w2, hd, rfl⟩ := h
  exact frame_stdoutOk _ w2 _ hd hx hs

theorem mainLoop_stdoutOk (clock : List Int) :
    ∀ (w w1 : World), mainLoop clock w = some w1 → stdoutOk w → stdoutOk w1 := by
  induction clock with
  | nil =>
    intro w w1 h hw
    simp only [mainLoop, Option.some.injEq] at h
    rw [← h]; exact hw
  | cons t clock ih =>
    intro w w1 h hw
    unfold mainLoop at h
    split at h
    · simp only [Option.some.injEq] at h
      rw [← h]; exact hw
    · rename_i hx
      rcases hw with ⟨h1, h2⟩ | ⟨h1, _⟩
      · cases hp : loopPass t w with
        | none => rw [hp] at h; simp at h
        | some w2 =>
          rw [hp] at h
          exact ih w2 w1 h (loopPass_stdoutOk t w w2 hp h1 h2)
      · rw [h1] at hx; simp at hx

theorem main_stdoutOk (keys : List Int) (t0 : Int) (clock : List Int) (w : World)
    (h : main keys t0 clock = some w) : stdoutOk w :=
  mainLoop_stdoutOk clock _ w h (Or.inl ⟨rfl, rfl⟩)

theorem loopPass_shutdown (t : Int) (w : World) (hs : w.state = SHUTDOWN) :
    loopPass t w = some (shutdown (header
      { w with iteration := incrInt w.iteration
               previousTime := (consume t ((t - w.previousTime) * 1000) w.previousTime).2 })) := by
  unfold loopPass
  simp only []
  rw [dispatch_shutdown _ (by rw [header_state]; exact hs), Option.map_some']
  simp [(shutdown_fields _).2.2.1]

/-! ## The claims -/

/-- C1. Off handler transitions: when the state is Off the dispatcher runs the
Off handler, and if the keystroke read is 'i' the state afterwards is On, if
it is 'x' the state afterwards is Shutdown. -/
theorem off_transitions (w : World) (c : Int) (hs : w.state = OFF) (hc : (getch w).1 = c) :
    dispatch w = some (off w)
      ∧ (c = key 'i' → (off w).state = ON)
      ∧ (c = key 'x' → (off w).state = SHUTDOWN) := by
  obtain ⟨hi, _, hx, _⟩ := key_values
  refine ⟨dispatch_off w hs, ?_, ?_⟩
  · intro h
    rw [off_state, hc, tolower_eq, h, hi]
    simp [ERR, ON]
  · intro h
    rw [off_state, hc, tolower_eq, h, hx, hi]
    simp [ERR, SHUTDOWN]

theorem off_transitions_witness :
    (off (init [key 'i'] 0)).state = ON ∧ (off (init [key 'x'] 0)).state = SHUTDOWN :=
  ⟨(off_transitions (init [key 'i'] 0) (key 'i') rfl rfl).2.1 rfl,
   (off_transitions (init [key 'x'] 0) (key 'x') rfl rfl).2.2 rfl⟩

/-- C2. On handler transitions: when the state is On the dispatcher runs the On
handler, and keystroke '1' leaves the state Mode1, '2' leaves Mode2 and '0'
leaves Off. -/
theorem on_transitions (w : World) (c : Int) (hs : w.state = ON) (hc : (getch w).1 = c) :
    dispatch w = some («on» w)
      ∧ (c = key '1' → («on» w).state = MODE1)
      ∧ (c = key '2' → («on» w).state = MODE2)
      ∧ (c = key '0' → («on» w).state = OFF) := by
  obtain ⟨_, _, _, _, h0, h1, h2, _⟩ := key_values
  refine ⟨dispatch_on w hs, ?_, ?_, ?_⟩
  · intro h
    rw [on_state, hc, h, h1]
    simp [ERR]
  · intro h
    rw [on_state, hc, h, h1, h2]
    simp [ERR]
  · intro h
    rw [on_state, hc, h, h1, h2, h0]
    simp [ERR]

theorem on_transitions_witness :
    («on» { init [key '2'] 0 with state := ON }).state = MODE2 :=
  (on_transitions { init [key '2'] 0 with state := ON } (key '2') rfl rfl).2.2.1 rfl

/-- C3. Mode1 handler transitions: when the state is Mode1 the dispatcher runs
the Mode1 handler, and keystroke 'i' leaves the state On, '2' leaves Mode2, '0'
leaves Off and '1' leaves Mode1. -/
theorem mode1_transitions (w : World) (c : Int) (hs : w.state = MODE1)
    (hc : (getch w).1 = c) :
    dispatch w = some (mode1 w)
      ∧ (c = key 'i' → (mode1 w).state = ON)
      ∧ (c = key '2' → (mode1 w).state = MODE2)
      ∧ (c = key '0' → (mode1 w).state = OFF)
      ∧ (c = key '1' → (mode1 w).state = MODE1) := by
  obtain ⟨hi, _, _, _, h0, h1, h2, _⟩ := key_values
  refine ⟨dispatch_mode1 w hs, ?_, ?_, ?_, ?_⟩
  · intro h
    rw [mode1_state, hc, h, hi]
    simp [ERR]
  · intro h
    rw [mode1_state, hc, h, hi, h2]
    simp [ERR]
  · intro h
    rw [mode1_state, hc, h, hi, h2, h0]
    simp [ERR]
  · intro h
    rw [mode1_state, hc, h, hi, h2, h0, h1]
    simp [ERR]

theorem mode1_transitions_witness :
    (mode1 { init [key '1'] 0 with state := MODE1 }).state = MODE1 :=
  (mode1_transitions { init [key '1'] 0 with state := MODE1 } (key '1') rfl rfl).2.2.2.2 rfl

/-- C4. Mode2 handler transitions: when the state is Mode2 the dispatcher runs
the Mode2 handler, and keystroke 'i' leaves the state On, '1' leaves Mode1, '0'
leaves Off and '2' leaves Mode2. -/
theorem mode2_transitions (w : World) (c : Int) (hs : w.state = MODE2)
    (hc : (getch w).1 = c) :
    dispatch w = some (mode2 w)
      ∧ (c = key 'i' → (mode2 w).state = ON)
      ∧ (c = key '1' → (mode2 w).state = MODE1)
      ∧ (c = key '0' → (mode2 w).state = OFF)
      ∧ (c = key '2' → (mode2 w).state = MODE2) := by
  obtain ⟨hi, _, _, _, h0, h1, h2, _⟩ := key_values
  refine ⟨dispatch_mode2 w hs, ?_, ?_, ?_, ?_⟩
  · intro h
    rw [mode2_state, hc, h, hi]
    simp [ERR]
  · intro h
    rw [mode2_state, hc, h, hi, h1]
    simp [ERR]
  · intro h
    rw [mode2_state, hc, h, hi, h1, h0]
    simp [ERR]
  · intro h
    rw [mode2_state, hc, h, hi, h1, h0, h2]
    simp [ERR]

theorem mode2_transitions_witness :
    (mode2 { init [key 'i'] 0 with state := MODE2 }).state = ON :=
  (mode2_transitions { init [key 'i'] 0 with state := MODE2 } (key 'i') rfl rfl).2.1 rfl

/-- C5. Self-loop on default: in each of Off, On, Mode1, Mode2, when the poll
gives no key (`ERR`) or a key outside the state's row of the transition table
(letters taken in either case), the handler the dispatcher runs leaves the
state as it was. -/
theorem self_loop_on_default (w : World) (c : Int) (hc : (getch w).1 = c) :
    (w.state = OFF →
        (c = ERR ∨ (c ≠ key 'i' ∧ c ≠ key 'I' ∧ c ≠ key 'x' ∧ c ≠ key 'X')) →
        dispatch w = some (off w) ∧ (off w).state = OFF)
      ∧ (w.state = ON →
        (c = ERR ∨ (c ≠ key '1' ∧ c ≠ key '2' ∧ c ≠ key '0')) →
        dispatch w = some («on» w) ∧ («on» w).state = ON)
      ∧ (w.state = MODE1 →
        (c = ERR ∨ (c ≠ key 'i' ∧ c ≠ key 'I' ∧ c ≠ key '2' ∧ c ≠ key '0')) →
        dispatch w = some (mode1 w) ∧ (mode1 w).state = MODE1)
      ∧ (w.state = MODE2 →
        (c = ERR ∨ (c ≠ key 'i' ∧ c ≠ key 'I' ∧ c ≠ key '1' ∧ c ≠ key '0')) →
        dispatch w = some (mode2 w) ∧ (mode2 w).state = MODE2) := by
  obtain ⟨hi, hI, hx, hX, h0, h1, h2, _⟩ := key_values
  rw [hi, hI, hx, hX, h0, h1, h2]
  refine ⟨?_, ?_, ?_, ?_⟩
  · intro hs h
    refine ⟨dispatch_off w hs, ?_⟩
    rw [off_state, hc, tolower_eq, hi, hx]
    rcases h with h | ⟨a, b, d, e⟩
    · rw [if_neg (by simpa using h)]; exact hs
    · split_ifs <;> first | rfl | omega
  · intro hs h
    refine ⟨dispatch_on w hs, ?_⟩
    rw [on_state, hc, h0, h1, h2]
    rcases h with h | ⟨a, b, d⟩
    · rw [if_neg (by simpa using h)]; exact hs
    · split_ifs <;> first | rfl | omega
  · intro hs h
    refine ⟨dispatch_mode1 w hs, ?_⟩
    rw [mode1_state, hc, hi, h0, h2]
    rcases h with h | ⟨a, b, d, e⟩
    · rw [if_neg (by simpa using h)]; exact hs
    · split_ifs <;> first | rfl | omega
  · intro hs h
    refine ⟨dispatch_mode2 w hs, ?_⟩
    rw [mode2_state, hc, hi, h0, h1]
    rcases h with h | ⟨a, b, d, e⟩
    · rw [if_neg (by simpa using h)]; exact hs
    · split_ifs <;> first | rfl | omega

theorem self_loop_on_default_witness :
    (off (init [key 'z'] 0)).state = OFF
      ∧ («on» { init [ERR] 0 with state := ON }).state = ON
      ∧ (mode1 { init [] 0 with state := MODE1 }).state = MODE1
      ∧ (mode2 { init [key '2'] 0 with state := MODE2 }).state = MODE2 :=
  ⟨((self_loop_on_default (init [key 'z'] 0) (key 'z') rfl).1 rfl
      (Or.inr (by decide))).2,
   ((self_loop_on_default { init [ERR] 0 with state := ON } ERR rfl).2.1 rfl
      (Or.inl rfl)).2,
   ((self_loop_on_default { init [] 0 with state := MODE1 } ERR rfl).2.2.1 rfl
      (Or.inl rfl)).2,
   ((self_loop_on_default { init [key '2'] 0 with state := MODE2 } (key '2') rfl).2.2.2 rfl
      (Or.inr (by decide))).2⟩

/-- C6, the code at the failing input: in Mode1 and in Mode2 the key 'I' leaves
the state where it is, whereas 'i' moves it to On and 'I' does move Off to On. -/
theorem upper_I_in_modes :
    (mode1 { init [key 'I'] 0 with state := MODE1 }).state = MODE1
      ∧ (mode1 { init [key 'i'] 0 with state := MODE1 }).state = ON
      ∧ (mode2 { init [key 'I'] 0 with state := MODE2 }).state = MODE2
      ∧ (mode2 { init [key 'i'] 0 with state := MODE2 }).state = ON
      ∧ (off (init [key 'I'] 0)).state = ON
      ∧ (off (init [key 'i'] 0)).state = ON := by
  refine ⟨?_, ?_, ?_, ?_, ?_, ?_⟩
  · rw [mode1_state]; decide
  · rw [mode1_state]; decide
  · rw [mode2_state]; decide
  · rw [mode2_state]; decide
  · rw [off_state]; decide
  · rw [off_state]; decide

/-- C7. Shutdown outcome: a pass of the main loop entered with the state equal
to Shutdown (any iteration counter, any clock sample, any earlier history)
completes; it consumes no key, appends exactly the text "Program terminated"
followed by a blank line to standard output, calls no `usleep`, ends the
process with exit status 0, and no later pass changes anything.  In a run of
`main` nothing was printed before, so the whole standard output is that text. -/
theorem shutdown_outcome (w : World) (t : Int) (hs : w.state = SHUTDOWN) :
    ∃ w1, loopPass t w = some w1
      ∧ dispatch (header w) = some (shutdown (header w))
      ∧ w1.input = w.input
      ∧ w1.stdout = w.stdout ++ "Program terminated\n\n"
      ∧ w1.exitStatus = some 0
      ∧ w1.sleeps = w.sleeps
      ∧ (∀ clock, mainLoop clock w1 = some w1)
      ∧ (∀ keys t0 clock, main keys t0 clock = some w → w.exitStatus = none →
          w1.stdout = "Program terminated\n\n") := by
  refine ⟨_, loopPass_shutdown t w hs, dispatch_shutdown _ (by rw [header_state]; exact hs),
    ?_, ?_, ?_, ?_, ?_, ?_⟩
  · rw [(shutdown_fields _).1, header_input]
  · rw [(shutdown_fields _).2.1, header_stdout]
  · exact (shutdown_fields _).2.2.1
  · rw [(shutdown_fields _).2.2.2.1, header_sleeps]
  · intro clock
    exact mainLoop_exited clock _ (by rw [(shutdown_fields _).2.2.1]; rfl)
  · intro keys t0 clock hrun hx
    rw [(shutdown_fields _).2.1, header_stdout]
    rcases main_stdoutOk keys t0 clock w hrun with ⟨_, h2⟩ | ⟨h1, _⟩
    · show w.stdout ++ "Program terminated\n\n" = "Program terminated\n\n"
      rw [h2]; rfl
    · rw [hx] at h1; cases h1

/-- Witness of C7: a pass entered in state Shutdown at iteration 7. -/
theorem shutdown_outcome_witness :
    ∃ w1, loopPass 3 { init [key 'i'] 0 with state := SHUTDOWN, iteration := 7 } = some w1
      ∧ w1.input = [key 'i'] ∧ w1.stdout = "Program terminated\n\n"
      ∧ w1.exitStatus = some 0 ∧ mainLoop [4, 5] w1 = some w1 := by
  obtain ⟨w1, h1, _, h2, h3, h4, _, h5, _⟩ :=
    shutdown_outcome { init [key 'i'] 0 with state := SHUTDOWN, iteration := 7 } 3 rfl
  exact ⟨w1, h1, h2, h3, h4, h5 [4, 5]⟩

/-- C8, as stated, fails: in Off at iteration 5 no bar character is highlighted
although 5 mod 40 is 5, and in On at iteration -1 none is highlighted although
the remainder is -1 (C) or 39 (mathematical). -/
theorem fill_not_iteration_mod :
    frameFill { init [] 0 with state := OFF, iteration := 5 } = some 0
      ∧ frameBar { init [] 0 with state := OFF, iteration := 5 }
          = some (List.replicate 40 dimCell)
      ∧ (5 : Int) % 40 = 5
      ∧ frameFill { init [] 0 with state := ON, iteration := -1 } = some 0
      ∧ cRem (-1) LINECHARS = -1
      ∧ (-1 : Int) % 40 = 39 := by
  refine ⟨frameFill_off _ rfl, frameBar_off _ rfl, by decide, ?_, by decide, by decide⟩
  rw [frameFill_running _ (Or.inl rfl)]
  decide

/-- C8, amended. In On, Mode1 and Mode2, for every non-negative iteration, the
number of bar characters drawn in the state's colour pair (1, 2, 3
respectively) is iteration mod 40, and these are all the coloured characters
of the bar, so the fill is the same function of iteration in the three states.
In Off no bar character is coloured: the bar is 40 dimmed dashes whatever the
iteration. -/
theorem fill_length_running (w : World) :
    ((w.state = ON ∨ w.state = MODE1 ∨ w.state = MODE2) → 0 ≤ w.iteration →
        ∃ bar k, frameBar w = some bar
          ∧ (w.state = ON ∧ k = 1 ∨ w.state = MODE1 ∧ k = 2 ∨ w.state = MODE2 ∧ k = 3)
          ∧ ((bar.count (colorCell k) : Nat) : Int) = w.iteration % 40
          ∧ ((fillLength bar : Nat) : Int) = w.iteration % 40)
      ∧ (w.state = OFF →
        frameBar w = some (List.replicate 40 dimCell) ∧ frameFill w = some 0) := by
  refine ⟨?_, fun hs => ⟨frameBar_off w hs, frameFill_off w hs⟩⟩
  intro hs hn
  obtain ⟨k, hk, hb⟩ := frameBar_running w hs
  have hk0 : k ≠ 0 := by omega
  have hp : 0 ≤ w.iteration % 40 := Int.emod_nonneg _ (by decide)
  refine ⟨_, k, hb, hk, ?_, ?_⟩
  · rw [count_runningBar, cRem_of_nonneg _ hn, Int.toNat_of_nonneg hp]
  · rw [fillLength_runningBar _ _ hk0, cRem_of_nonneg _ hn, Int.toNat_of_nonneg hp]

/-- Witness of amended C8: Mode1 at iteration 45 and Off at iteration 45. -/
theorem fill_length_running_witness :
    (∃ bar k, frameBar { init [] 0 with state := MODE1, iteration := 45 } = some bar
          ∧ (MODE1 = ON ∧ k = 1 ∨ MODE1 = MODE1 ∧ k = 2 ∨ MODE1 = MODE2 ∧ k = 3)
          ∧ ((bar.count (colorCell k) : Nat) : Int) = 45 % 40
          ∧ ((fillLength bar : Nat) : Int) = 45 % 40)
      ∧ frameFill { init [] 0 with state := OFF, iteration := 45 } = some 0 :=
  ⟨(fill_length_running { init [] 0 with state := MODE1, iteration := 45 }).1
      (Or.inr (Or.inl rfl)) (by decide),
   ((fill_length_running { init [] 0 with state := OFF, iteration := 45 }).2 rfl).2⟩

/-- C9. Progress-bar length: in each of Off, On, Mode1, Mode2 and for every
non-negative iteration, the bar drawn in the frame is exactly 40 dashes: a
prefix of coloured (not dimmed) dashes, as many as the fill length, followed by
40 minus that many dimmed default-colour dashes. -/
theorem bar_length (w : World)
    (hs : w.state = OFF ∨ w.state = ON ∨ w.state = MODE1 ∨ w.state = MODE2)
    (hn : 0 ≤ w.iteration) :
    ∃ bar a, frameBar w = some bar
      ∧ bar.length = 40
      ∧ (∀ c ∈ bar, c.ch = '-')
      ∧ fillLength bar ≤ 40
      ∧ a.pair ≠ 0 ∧ a.dim = false
      ∧ bar = List.replicate (fillLength bar) ⟨'-', a⟩
          ++ List.replicate (40 - fillLength bar) dimCell := by
  rcases hs with h | hs
  · refine ⟨_, COLOR_PAIR 1, frameBar_off w h, List.length_replicate _ _, ?_, ?_, by decide,
      rfl, ?_⟩
    · intro c hc
      rw [(List.mem_replicate.1 hc).2]; rfl
    · rw [fillLength_dim]; exact Nat.zero_le _
    · rw [fillLength_dim]; rfl
  · obtain ⟨k, hk, hb⟩ := frameBar_running w hs
    have hk0 : k ≠ 0 := by omega
    have hp : 0 ≤ w.iteration % 40 := Int.emod_nonneg _ (by decide)
    have hq : w.iteration % 40 < 40 := Int.emod_lt_of_pos _ (by decide)
    have hf : fillLength (runningBar k w.iteration) = (w.iteration % 40).toNat := by
      rw [fillLength_runningBar _ _ hk0, cRem_of_nonneg _ hn]
    refine ⟨_, COLOR_PAIR k, hb, length_runningBar k _ hn, ?_, ?_, hk0, rfl, ?_⟩
    · intro c hc
      unfold runningBar at hc
      rcases List.mem_append.1 hc with h | h
      · rw [(List.mem_replicate.1 h).2]; rfl
      · rw [(List.mem_replicate.1 h).2]; rfl
    · rw [hf]; omega
    · rw [hf]
      unfold runningBar
      rw [cRem_of_nonneg _ hn]
      have e : (LINECHARS - w.iteration % 40).toNat = 40 - (w.iteration % 40).toNat := by
        unfold LINECHARS; omega
      rw [e]
      rfl

/-- Witness of C9: Mode2 at iteration 83. -/
theorem bar_length_witness :
    ∃ bar a, frameBar { init [] 0 with state := MODE2, iteration := 83 } = some bar
      ∧ bar.length = 40
      ∧ (∀ c ∈ bar, c.ch = '-')
      ∧ fillLength bar ≤ 40
      ∧ a.pair ≠ 0 ∧ a.dim = false
      ∧ bar = List.replicate (fillLength bar) ⟨'-', a⟩
          ++ List.replicate (40 - fillLength bar) dimCell :=
  bar_length { init [] 0 with state := MODE2, iteration := 83 }
    (Or.inr (Or.inr (Or.inr rfl))) (by decide)

/-- C10. The fill is monotonically cyclic: along consecutive frames rendered in
On, Mode1 or Mode2 (possibly changing among them) with iteration values n,
n+1, n+2, ... from a non-negative n, each frame's fill is the previous one plus
one, except that 39 is followed by 0; and in every run of 40 consecutive
frames each value 0..39 is the fill of exactly one frame. -/
theorem fill_cyclic (ws : Nat → World) (n : Int) (hn : 0 ≤ n)
    (hit : ∀ k, (ws k).iteration = n + k)
    (hst : ∀ k, (ws k).state = ON ∨ (ws k).state = MODE1 ∨ (ws k).state = MODE2) :
    (∀ k, ∃ a b, frameFill (ws k) = some a ∧ frameFill (ws (k + 1)) = some b
        ∧ (a = 39 → b = 0) ∧ (a ≠ 39 → b = a + 1))
      ∧ (∀ k v, v < 40 → ∃! j, j < 40 ∧ frameFill (ws (k + j)) = some v) := by
  obtain ⟨m, rfl⟩ := Int.eq_ofNat_of_zero_le hn
  have hf : ∀ k, frameFill (ws k) = some ((m + k) % 40) := by
    intro k
    rw [frameFill_running _ (hst k), hit k, cRem_of_nonneg _ (by omega)]
    congr 1
  constructor
  · intro k
    refine ⟨_, _, hf k, hf (k + 1), ?_, ?_⟩ <;> omega
  · intro k v hv
    refine ⟨(v + 40 - (m + k) % 40) % 40, ⟨by omega, ?_⟩, ?_⟩
    · rw [hf]; congr 1; omega
    · rintro j ⟨hj, hjv⟩
      rw [hf] at hjv
      have := Option.some.inj hjv
      omega

/-- Witness of C10: frames in On from iteration 38 on. -/
theorem fill_cyclic_witness :
    (∀ k, ∃ a b,
        frameFill { init [] 0 with state := ON, iteration := (38 : Int) + (k : Nat) } = some a
        ∧ frameFill { init [] 0 with state := ON, iteration := (38 : Int) + ((k + 1 : Nat)) }
            = some b
        ∧ (a = 39 → b = 0) ∧ (a ≠ 39 → b = a + 1))
      ∧ (∀ k v, v < 40 → ∃! j, j < 40
        ∧ frameFill { init [] 0 with state := ON, iteration := (38 : Int) + ((k + j : Nat)) }
            = some v) :=
  fill_cyclic (fun k => { init [] 0 with state := ON, iteration := (38 : Int) + (k : Nat) }) 38
    (by decide) (fun _ => rfl) (fun _ => Or.inl rfl)

/-! ## More on what a handler leaves alone -/

@[simp] theorem forRange_dimDash_pairs (i hi : Int) (w : World) :
    (forRange i hi dimDash w).pairs = w.pairs :=
  forRange_inv (fun w => w.pairs) dimDash (fun _ => rfl) i hi w

@[simp] theorem forRange_colorDash_pairs (k : Nat) (i hi : Int) (w : World) :
    (forRange i hi (colorDash k) w).pairs = w.pairs :=
  forRange_inv (fun w => w.pairs) (colorDash k) (fun _ => rfl) i hi w

@[simp] theorem getch_previousTime (w : World) : (getch w).2.previousTime = w.previousTime := by
  unfold getch; split <;> rfl

@[simp] theorem getch_pairs (w : World) : (getch w).2.pairs = w.pairs := by
  unfold getch; split <;> rfl

theorem header_previousTime (w : World) : (header w).previousTime = w.previousTime := by
  rw [header_eq]

theorem header_pairs (w : World) : (header w).pairs = w.pairs := by
  rw [header_eq]

theorem off_keeps (w : World) :
    (off w).iteration = w.iteration ∧ (off w).previousTime = w.previousTime
      ∧ (off w).pairs = w.pairs ∧ (off w).sleeps = w.sleeps := by
  unfold off
  simp only []
  split_ifs <;> simp [timeout, refresh, printw]

theorem on_keeps (w : World) :
    («on» w).iteration = w.iteration ∧ («on» w).previousTime = w.previousTime
      ∧ («on» w).pairs = w.pairs ∧ («on» w).sleeps = w.sleeps := by
  unfold «on»
  simp only []
  split_ifs <;> simp [timeout, refresh, printw, attrset]

theorem mode1_keeps (w : World) :
    (mode1 w).iteration = w.iteration ∧ (mode1 w).previousTime = w.previousTime
      ∧ (mode1 w).pairs = w.pairs ∧ (mode1 w).sleeps = w.sleeps := by
  unfold mode1
  simp only []
  split_ifs <;> simp [timeout, refresh, printw, attrset]

theorem mode2_keeps (w : World) :
    (mode2 w).iteration = w.iteration ∧ (mode2 w).previousTime = w.previousTime
      ∧ (mode2 w).pairs = w.pairs ∧ (mode2 w).sleeps = w.sleeps := by
  unfold mode2
  simp only []
  split_ifs <;> simp [timeout, refresh, printw, attrset]

theorem shutdown_keeps (w : World) :
    (shutdown w).iteration = w.iteration ∧ (shutdown w).previousTime = w.previousTime
      ∧ (shutdown w).pairs = w.pairs ∧ (shutdown w).sleeps = w.sleeps
      ∧ (shutdown w).state = w.state := by
  simp [shutdown, exit, printf, endwin]

theorem dispatch_keeps (w w1 : World) (h : dispatch w = some w1) :
    w1.iteration = w.iteration ∧ w1.previousTime = w.previousTime
      ∧ w1.pairs = w.pairs ∧ w1.sleeps = w.sleeps := by
  rcases dispatch_cases w w1 h with ⟨_, rfl⟩ | ⟨_, rfl⟩ | ⟨_, rfl⟩ | ⟨_, rfl⟩ | ⟨_, rfl⟩
  · exact off_keeps w
  · exact on_keeps w
  · exact mode1_keeps w
  · exact mode2_keeps w
  · exact ⟨(shutdown_keeps w).1, (shutdown_keeps w).2.1, (shutdown_keeps w).2.2.1,
      (shutdown_keeps w).2.2.2.1⟩

theorem dispatch_total (w : World) (h : stateOk w) : ∃ w1, dispatch w = some w1 := by
  rcases h with h | h | h | h | h
  · exact ⟨_, dispatch_off w h⟩
  · exact ⟨_, dispatch_on w h⟩
  · exact ⟨_, dispatch_mode1 w h⟩
  · exact ⟨_, dispatch_mode2 w h⟩
  · exact ⟨_, dispatch_shutdown w h⟩

theorem dispatch_stateOk (w w1 : World) (h : dispatch w = some w1) : stateOk w1 := by
  unfold stateOk
  rcases dispatch_cases w w1 h with ⟨hs, rfl⟩ | ⟨hs, rfl⟩ | ⟨hs, rfl⟩ | ⟨hs, rfl⟩ | ⟨hs, rfl⟩
  · rw [off_state, hs]; split_ifs <;> simp
  · rw [on_state, hs]; split_ifs <;> simp
  · rw [mode1_state, hs]; split_ifs <;> simp
  · rw [mode2_state, hs]; split_ifs <;> simp
  · rw [(shutdown_keeps w).2.2.2.2, hs]; simp

theorem dispatch_exitStatus (w w1 : World) (h : dispatch w = some w1) :
    (w.state ≠ SHUTDOWN → w1.exitStatus = w.exitStatus)
      ∧ (w.state = SHUTDOWN → w1.exitStatus = some 0) := by
  rcases dispatch_cases w w1 h with ⟨hs, rfl⟩ | ⟨hs, rfl⟩ | ⟨hs, rfl⟩ | ⟨hs, rfl⟩ | ⟨hs, rfl⟩
  · exact ⟨fun _ => (off_stdout w).2, fun h2 => by rw [hs] at h2; exact absurd h2 (by decide)⟩
  · exact ⟨fun _ => (on_stdout w).2, fun h2 => by rw [hs] at h2; exact absurd h2 (by decide)⟩
  · exact ⟨fun _ => (mode1_stdout w).2, fun h2 => by rw [hs] at h2; exact absurd h2 (by decide)⟩
  · exact ⟨fun _ => (mode2_stdout w).2, fun h2 => by rw [hs] at h2; exact absurd h2 (by decide)⟩
  · exact ⟨fun h2 => absurd hs h2, fun _ => (shutdown_fields w).2.2.1⟩

/-! ## The pacing loop -/

theorem frameTime_eq : frameTime = 41 := by decide

theorem consume_lt (cur e prev : Int) (h : e < 41) : consume cur e prev = (e, prev) := by
  rw [consume, if_neg (by rw [frameTime_eq]; omega)]

theorem consume_ge (cur : Int) :
    ∀ (n : Nat) (e prev : Int), e.toNat = n → 41 ≤ e → consume cur e prev = (e % 41, cur) := by
  intro n
  induction n using Nat.strong_induction_on with
  | _ n ih =>
    intro e prev hn he
    rw [consume, if_pos (by rw [frameTime_eq]; exact he), frameTime_eq]
    by_cases h2 : 41 ≤ e - 41
    · rw [ih (e - 41).toNat (by omega) (e - 41) cur rfl h2]
      congr 1
      omega
    · rw [consume_lt _ _ _ (by omega)]
      congr 1
      omega

theorem consume_eq (cur e prev : Int) (h : 0 ≤ e) :
    consume cur e prev = (e % 41, if 41 ≤ e then cur else prev) := by
  by_cases h2 : 41 ≤ e
  · rw [consume_ge cur _ e prev rfl h2, if_pos h2]
  · rw [consume_lt _ _ _ (by omega), if_neg h2]
    congr 1
    omega

theorem consume_snd (cur e prev : Int) :
    (consume cur e prev).2 = if 41 ≤ e then cur else prev := by
  by_cases h2 : 41 ≤ e
  · rw [consume_ge cur _ e prev rfl h2, if_pos h2]
  · rw [consume_lt _ _ _ (by omega), if_neg h2]

/-! ## One pass of the main loop -/

theorem loopPass_some (t : Int) (w w1 : World) (h : loopPass t w = some w1) :
    ∃ w2, dispatch (header { w with
        iteration := incrInt w.iteration
        previousTime := (consume t ((t - w.previousTime) * 1000) w.previousTime).2 }) = some w2
      ∧ w1 = if w2.exitStatus.isSome = true then w2
          else usleep ((frameTime
            - (consume t ((t - w.previousTime) * 1000) w.previousTime).1) * 1000) w2 := by
  unfold loopPass at h
  simp only [Option.map_eq_some'] at h
  obtain ⟨w2, hd, rfl⟩ := h
  exact ⟨w2, hd, rfl⟩

theorem loopPass_total (t : Int) (w : World) (h : stateOk w) : ∃ w1, loopPass t w = some w1 := by
  unfold loopPass
  simp only []
  obtain ⟨w2, h2⟩ := dispatch_total (header { w with
        iteration := incrInt w.iteration
        previousTime := (consume t ((t - w.previousTime) * 1000) w.previousTime).2 })
    (by unfold stateOk; rw [header_state]; exact h)
  rw [h2]
  exact ⟨_, rfl⟩

theorem loopPass_keeps (t : Int) (w w1 : World) (h : loopPass t w = some w1) :
    stateOk w1 ∧ w1.iteration = incrInt w.iteration
      ∧ w1.previousTime = (consume t ((t - w.previousTime) * 1000) w.previousTime).2
      ∧ w1.pairs = w.pairs
      ∧ (w.state ≠ SHUTDOWN → w1.exitStatus = w.exitStatus) := by
  obtain ⟨w2, hd, rfl⟩ := loopPass_some t w w1 h
  have hk := dispatch_keeps _ _ hd
  have hs := dispatch_stateOk _ _ hd
  have hx := (dispatch_exitStatus _ _ hd).1
  rw [header_iteration] at hk
  rw [header_previousTime, header_pairs] at hk
  rw [header_state, header_exitStatus] at hx
  unfold stateOk at hs ⊢
  split_ifs
  · exact ⟨hs, hk.1, hk.2.1, hk.2.2.1, hx⟩
  · exact ⟨hs, hk.1, hk.2.1, hk.2.2.1, hx⟩

theorem loopPass_sleeps (t : Int) (w w1 : World) (h : loopPass t w = some w1)
    (hs : w.state ≠ SHUTDOWN) (hx : w.exitStatus = none) :
    w1.sleeps = w.sleeps
      ++ [(frameTime - (consume t ((t - w.previousTime) * 1000) w.previousTime).1) * 1000] := by
  obtain ⟨w2, hd, rfl⟩ := loopPass_some t w w1 h
  have hk := (dispatch_keeps _ _ hd).2.2.2
  have he := (dispatch_exitStatus _ _ hd).1 (by rw [header_state]; exact hs)
  rw [header_sleeps] at hk
  rw [header_exitStatus] at he
  simp only [] at hk he
  rw [hx] at he
  rw [if_neg (by rw [he]; simp)]
  simp [usleep, hk]

theorem loopPass_state (t : Int) (w w1 : World) (h : loopPass t w = some w1) :
    ∃ w2, dispatch (header { w with
        iteration := incrInt w.iteration
        previousTime := (consume t ((t - w.previousTime) * 1000) w.previousTime).2 }) = some w2
      ∧ w1.state = w2.state := by
  obtain ⟨w2, hd, rfl⟩ := loopPass_some t w w1 h
  refine ⟨w2, hd, ?_⟩
  split_ifs <;> rfl

/-! ## Whole runs -/

theorem mainLoop_total (clock : List Int) :
    ∀ w : World, stateOk w → ∃ w1, mainLoop clock w = some w1 ∧ stateOk w1 := by
  induction clock with
  | nil => intro w hw; exact ⟨w, rfl, hw⟩
  | cons t clock ih =>
    intro w hw
    unfold mainLoop
    split
    · exact ⟨w, rfl, hw⟩
    · obtain ⟨w2, h2⟩ := loopPass_total t w hw
      rw [h2]
      exact ih w2 (loopPass_keeps t w w2 h2).1

theorem mainLoop_pairs (clock : List Int) :
    ∀ (w w1 : World), mainLoop clock w = some w1 → w1.pairs = w.pairs := by
  induction clock with
  | nil =>
    intro w w1 h
    simp only [mainLoop, Option.some.injEq] at h
    rw [← h]
  | cons t clock ih =>
    intro w w1 h
    unfold mainLoop at h
    split at h
    · simp only [Option.some.injEq] at h
      rw [← h]
    · cases hp : loopPass t w with
      | none => rw [hp] at h; simp at h
      | some w2 =>
        rw [hp] at h
        simp only [Option.some_bind] at h
        rw [ih w2 w1 h, (loopPass_keeps t w w2 hp).2.2.2.1]

theorem mainLoop_previousTime (clock : List Int) :
    ∀ (w w1 : World), mainLoop clock w = some w1 → List.Chain (fun a b => a ≤ b) w.previousTime clock →
      w1.exitStatus = none → w1.previousTime = clock.getLastD w.previousTime := by
  induction clock with
  | nil =>
    intro w w1 h _ _
    simp only [mainLoop, Option.some.injEq] at h
    rw [← h]; rfl
  | cons t clock ih =>
    intro w w1 h hc hx
    unfold mainLoop at h
    split at h
    · rename_i he
      simp only [Option.some.injEq] at h
      rw [← h] at hx
      rw [hx] at he
      simp at he
    · cases hp : loopPass t w with
      | none => rw [hp] at h; simp at h
      | some w2 =>
        rw [hp] at h
        simp only [Option.some_bind] at h
        have hle : w.previousTime ≤ t := (List.chain_cons.1 hc).1
        have h2 : w2.previousTime = t := by
          rw [(loopPass_keeps t w w2 hp).2.2.1, consume_snd]
          split_ifs <;> omega
        have := ih w2 w1 h (by rw [h2]; exact (List.chain_cons.1 hc).2) hx
        rw [this, h2]
        cases clock <;> rfl

/-! ## Negative iteration values -/

theorem cRem_negSucc (m : Nat) :
    cRem (Int.negSucc m) LINECHARS = -(((m + 1) % 40 : Nat) : Int) := rfl

theorem cRem_of_neg (n : Int) (h : n < 0) :
    -39 ≤ cRem n LINECHARS ∧ cRem n LINECHARS ≤ 0 := by
  obtain ⟨m, rfl⟩ := Int.eq_negSucc_of_lt_zero h
  rw [cRem_negSucc]
  omega

/-! ## Leaving Off, On, Mode1, Mode2 -/

theorem on_not_shutdown (w : World) (h : w.state = ON) : («on» w).state ≠ SHUTDOWN := by
  rw [on_state, h]; split_ifs <;> decide

theorem mode1_not_shutdown (w : World) (h : w.state = MODE1) : (mode1 w).state ≠ SHUTDOWN := by
  rw [mode1_state, h]; split_ifs <;> decide

theorem mode2_not_shutdown (w : World) (h : w.state = MODE2) : (mode2 w).state ≠ SHUTDOWN := by
  rw [mode2_state, h]; split_ifs <;> decide

theorem off_to_shutdown (w : World) (h : (off w).state = SHUTDOWN) (hs : w.state = OFF) :
    (getch w).1 = key 'x' ∨ (getch w).1 = key 'X' := by
  obtain ⟨hi, _, hx, hX, _⟩ := key_values
  rw [off_state, tolower_eq, hi, hx, hs] at h
  rw [hx, hX]
  unfold OFF ON SHUTDOWN at h
  split_ifs at h <;> omega

theorem loopPass_to_shutdown (t : Int) (w w1 : World) (h : loopPass t w = some w1)
    (hs : w.state ≠ SHUTDOWN) (h1 : w1.state = SHUTDOWN) :
    w.state = OFF ∧ ((getch w).1 = key 'x' ∨ (getch w).1 = key 'X') := by
  obtain ⟨w2, hd, he⟩ := loopPass_state t w w1 h
  rw [h1] at he
  have hg : ∀ v : World, v.input = w.input → (getch (header v)).1 = (getch w).1 := by
    intro v hv
    exact getch_fst_congr _ _ ((header_input v).trans hv)
  rcases dispatch_cases _ _ hd with ⟨h0, rfl⟩ | ⟨h0, rfl⟩ | ⟨h0, rfl⟩ | ⟨h0, rfl⟩ | ⟨h0, rfl⟩
  · have h0' : w.state = OFF := by rw [header_state] at h0; exact h0
    refine ⟨h0', ?_⟩
    rcases off_to_shutdown _ he.symm h0 with hk | hk
    · exact Or.inl ((hg _ (by rfl)).symm.trans hk)
    · exact Or.inr ((hg _ (by rfl)).symm.trans hk)
  · exact absurd he.symm (on_not_shutdown _ h0)
  · exact absurd he.symm (mode1_not_shutdown _ h0)
  · exact absurd he.symm (mode2_not_shutdown _ h0)
  · rw [header_state] at h0
    exact absurd h0 hs

theorem mainLoop_to_shutdown (clock : List Int) :
    ∀ (w w1 : World), mainLoop clock w = some w1 → w.state ≠ SHUTDOWN → w1.state = SHUTDOWN →
      ∃ c1 t c2 v v1, clock = c1 ++ t :: c2 ∧ mainLoop c1 w = some v ∧ v.exitStatus = none
        ∧ v.state = OFF ∧ ((getch v).1 = key 'x' ∨ (getch v).1 = key 'X')
        ∧ loopPass t v = some v1 ∧ v1.state = SHUTDOWN := by
  induction clock with
  | nil =>
    intro w w1 h hs h1
    simp only [mainLoop, Option.some.injEq] at h
    rw [← h] at h1
    exact absurd h1 hs
  | cons t clock ih =>
    intro w w1 h hs h1
    unfold mainLoop at h
    split at h
    · simp only [Option.some.injEq] at h
      rw [← h] at h1
      exact absurd h1 hs
    · rename_i hx
      have hx' : w.exitStatus = none := by
        cases he : w.exitStatus with
        | none => rfl
        | some a => rw [he] at hx; simp at hx
      cases hp : loopPass t w with
      | none => rw [hp] at h; simp at h
      | some w2 =>
        rw [hp] at h
        simp only [Option.some_bind] at h
        by_cases h2 : w2.state = SHUTDOWN
        · obtain ⟨ho, hk⟩ := loopPass_to_shutdown t w w2 hp hs h2
          exact ⟨[], t, clock, w, w2, rfl, rfl, hx', ho, hk, hp, h2⟩
        · obtain ⟨c1, t', c2, v, v1, e1, e2, e3, e4, e5, e6, e7⟩ := ih w2 w1 h h2 h1
          refine ⟨t :: c1, t', c2, v, v1, by rw [e1]; rfl, ?_, e3, e4, e5, e6, e7⟩
          unfold mainLoop
          rw [if_neg hx, hp]
          exact e2

/-! ## The claims, continued -/

/-- C12. End-of-frame sleep is bounded: for clock samples with
currentTime >= previousTime and e0 = (currentTime - previousTime) * 1000, the
frame interval is 41, the consume loop ends with elapsedTime = e0 mod 41, which
lies in 0..40, and a pass that runs the Off, On, Mode1 or Mode2 handler
completes and calls `usleep` once, with (41 - elapsedTime) * 1000, a value
between 1000 and 41000. -/
theorem sleep_bounded (currentTime previousTime : Int) (h : previousTime ≤ currentTime) :
    frameTime = 41
      ∧ (consume currentTime ((currentTime - previousTime) * 1000) previousTime).1
          = ((currentTime - previousTime) * 1000) % 41
      ∧ 0 ≤ (consume currentTime ((currentTime - previousTime) * 1000) previousTime).1
      ∧ (consume currentTime ((currentTime - previousTime) * 1000) previousTime).1 < 41
      ∧ 1000 ≤ (41 - ((currentTime - previousTime) * 1000) % 41) * 1000
      ∧ (41 - ((currentTime - previousTime) * 1000) % 41) * 1000 ≤ 41000
      ∧ (∀ w : World, w.previousTime = previousTime → stateOk w → w.state ≠ SHUTDOWN →
          w.exitStatus = none →
          ∃ w1, loopPass currentTime w = some w1
            ∧ w1.sleeps = w.sleeps ++ [(41 - ((currentTime - previousTime) * 1000) % 41) * 1000]) := by
  have h0 : 0 ≤ (currentTime - previousTime) * 1000 := by omega
  have hc := consume_eq currentTime ((currentTime - previousTime) * 1000) previousTime h0
  refine ⟨frameTime_eq, by rw [hc], by rw [hc]; omega, by rw [hc]; omega, by omega, by omega, ?_⟩
  intro w hp hok hs hx
  obtain ⟨w1, hw1⟩ := loopPass_total currentTime w hok
  refine ⟨w1, hw1, ?_⟩
  rw [loopPass_sleeps currentTime w w1 hw1 hs hx, hp, hc, frameTime_eq]

/-- Witness of C12: one second between the two samples; 1000 mod 41 is 16, so
the sleep is 25000 microseconds. -/
theorem sleep_bounded_witness :
    (consume 1 ((1 - 0) * 1000) 0).1 = ((1 - 0) * 1000) % 41
      ∧ ∃ w1, loopPass 1 (init [] 0) = some w1
        ∧ w1.sleeps = (init [] 0).sleeps ++ [(41 - ((1 - 0) * 1000) % 41) * 1000] :=
  ⟨(sleep_bounded 1 0 (by decide)).2.1,
   (sleep_bounded 1 0 (by decide)).2.2.2.2.2.2 (init [] 0) rfl (Or.inl rfl) (by decide) rfl⟩

/-- C15. Shutdown is entered only from Off by the exit key: in On, Mode1 and
Mode2 the handler the dispatcher runs never leaves the state equal to
Shutdown, whatever the poll gives; a pass that starts in another state and
ends in Shutdown started in Off and polled 'x' or 'X'; and every run of `main`
that ends in state Shutdown contains such a pass, the first one to set the
state to Shutdown. -/
theorem shutdown_only_from_off :
    (∀ w : World,
        (w.state = ON → dispatch w = some («on» w) ∧ («on» w).state ≠ SHUTDOWN)
        ∧ (w.state = MODE1 → dispatch w = some (mode1 w) ∧ (mode1 w).state ≠ SHUTDOWN)
        ∧ (w.state = MODE2 → dispatch w = some (mode2 w) ∧ (mode2 w).state ≠ SHUTDOWN))
      ∧ (∀ (t : Int) (w w1 : World), loopPass t w = some w1 → w.state ≠ SHUTDOWN →
          w1.state = SHUTDOWN →
          w.state = OFF ∧ ((getch w).1 = key 'x' ∨ (getch w).1 = key 'X'))
      ∧ (∀ (keys : List Int) (t0 : Int) (clock : List Int) (w : World),
          main keys t0 clock = some w → w.state = SHUTDOWN →
          ∃ c1 t c2 v v1, clock = c1 ++ t :: c2 ∧ main keys t0 c1 = some v
            ∧ v.exitStatus = none ∧ v.state = OFF
            ∧ ((getch v).1 = key 'x' ∨ (getch v).1 = key 'X')
            ∧ loopPass t v = some v1 ∧ v1.state = SHUTDOWN) := by
  refine ⟨fun w => ⟨fun h => ⟨dispatch_on w h, on_not_shutdown w h⟩,
    fun h => ⟨dispatch_mode1 w h, mode1_not_shutdown w h⟩,
    fun h => ⟨dispatch_mode2 w h, mode2_not_shutdown w h⟩⟩,
    loopPass_to_shutdown, ?_⟩
  intro keys t0 clock w hrun hs
  exact mainLoop_to_shutdown clock (init keys t0) w hrun (by show OFF ≠ SHUTDOWN; decide) hs

/-- Witness of C15: On with the key 'x' pending stays out of Shutdown. -/
theorem shutdown_only_from_off_witness :
    («on» { init [key 'x'] 0 with state := ON }).state ≠ SHUTDOWN :=
  ((shutdown_only_from_off.1 { init [key 'x'] 0 with state := ON }).1 rfl).2

/-- C16. Reference timestamp: the pacing loop leaves previousTime equal to
currentTime exactly when (currentTime - previousTime) * 1000 is at least the
frame interval 41 and unchanged otherwise, and a pass stores that value; so
when the sample is not before previousTime the pass ends with previousTime
equal to the sample, along a non-decreasing clock previousTime is the latest
sample after every pass, and the next pass sleeps for a time fixed by its own
two samples alone. -/
theorem reference_timestamp (currentTime previousTime : Int) :
    (consume currentTime ((currentTime - previousTime) * 1000) previousTime).2
        = (if frameTime ≤ (currentTime - previousTime) * 1000 then currentTime
            else previousTime)
      ∧ (∀ (w w1 : World), w.previousTime = previousTime → loopPass currentTime w = some w1 →
          w1.previousTime
            = (if 41 ≤ (currentTime - previousTime) * 1000 then currentTime else previousTime)
          ∧ (previousTime ≤ currentTime → w1.previousTime = currentTime)
          ∧ (previousTime ≤ currentTime → ∀ (t2 : Int) (w2 : World), currentTime ≤ t2 →
              w1.state ≠ SHUTDOWN → w1.exitStatus = none → loopPass t2 w1 = some w2 →
              w2.previousTime = t2
              ∧ w2.sleeps = w1.sleeps ++ [(41 - ((t2 - currentTime) * 1000) % 41) * 1000]))
      ∧ (∀ (keys : List Int) (clock : List Int) (w : World),
          List.Chain (fun a b => a ≤ b) previousTime clock →
          main keys previousTime clock = some w → w.exitStatus = none →
          w.previousTime = clock.getLastD previousTime) := by
  have pace : ∀ (t : Int) (v v1 : World), loopPass t v = some v1 → v.previousTime ≤ t →
      v1.previousTime = t := by
    intro t v v1 hv hle
    rw [(loopPass_keeps t v v1 hv).2.2.1, consume_snd]
    split_ifs <;> omega
  refine ⟨?_, ?_, ?_⟩
  · rw [consume_snd, frameTime_eq]
  · intro w w1 hp hw
    have h1 : w1.previousTime
        = (if 41 ≤ (currentTime - previousTime) * 1000 then currentTime else previousTime) := by
      rw [(loopPass_keeps currentTime w w1 hw).2.2.1, consume_snd, hp]
    have h2 : previousTime ≤ currentTime → w1.previousTime = currentTime := by
      intro hle
      exact pace currentTime w w1 hw (by rw [hp]; exact hle)
    refine ⟨h1, h2, ?_⟩
    intro hle t2 w2 hle2 hs hx hw2
    refine ⟨pace t2 w1 w2 hw2 (by rw [h2 hle]; exact hle2), ?_⟩
    rw [loopPass_sleeps t2 w1 w2 hw2 hs hx, h2 hle,
      consume_eq t2 ((t2 - currentTime) * 1000) currentTime (by omega), frameTime_eq]
  · intro keys clock w hc hrun hx
    exact mainLoop_previousTime clock (init keys previousTime) w hrun hc hx

/-- Witness of C16: a pass one second after the reference sample. -/
theorem reference_timestamp_witness :
    ∃ w1, loopPass 8 (init [] 7) = some w1 ∧ w1.previousTime = 8 :=
  match loopPass_total 8 (init [] 7) (Or.inl rfl) with
  | ⟨w1, h⟩ =>
    ⟨w1, h, ((reference_timestamp 8 7).2.1 (init [] 7) w1 rfl h).2.1 (by decide)⟩

/-- C17. Dispatch index stays in range: for every keyboard and clock the run of
`main` completes with the state variable equal to one of the five enumerators
0..4, so after every frame the index is inside the five-entry table and the
lookup of the next frame selects one handler. -/
theorem dispatch_in_range (keys : List Int) (t0 : Int) (clock : List Int) :
    ∃ w, main keys t0 clock = some w
      ∧ stateOk w ∧ 0 ≤ w.state ∧ w.state ≤ 4
      ∧ states.length = 5 ∧ w.state.toNat < states.length
      ∧ ∃ fn, states.get? w.state.toNat = some fn
          ∧ dispatch (header w) = some (fn (header w)) := by
  obtain ⟨w, hw, hok⟩ := mainLoop_total clock (init keys t0) (Or.inl rfl)
  refine ⟨w, hw, hok, ?_, ?_, rfl, ?_, ?_⟩
  · unfold stateOk OFF ON MODE1 MODE2 SHUTDOWN at hok; omega
  · unfold stateOk OFF ON MODE1 MODE2 SHUTDOWN at hok; omega
  · unfold stateOk OFF ON MODE1 MODE2 SHUTDOWN at hok
    show w.state.toNat < 5
    omega
  · unfold dispatch
    rw [header_state]
    rcases hok with h | h | h | h | h <;> rw [h] <;> exact ⟨_, rfl, rfl⟩

/-- C18. Negative iteration values break the 40-character bar: for a negative
iteration the C remainder position = iteration % 40 lies in -39..0, and the
On, Mode1 and Mode2 handlers draw no highlighted character and 40 - position
dimmed dashes, more than 40 whenever position is not 0. -/
theorem negative_iteration_bar (w : World)
    (hs : w.state = ON ∨ w.state = MODE1 ∨ w.state = MODE2) (hn : w.iteration < 0) :
    -39 ≤ cRem w.iteration LINECHARS ∧ cRem w.iteration LINECHARS ≤ 0
      ∧ ∃ bar, frameBar w = some bar
        ∧ fillLength bar = 0
        ∧ bar = List.replicate (40 - cRem w.iteration LINECHARS).toNat dimCell
        ∧ (bar.length : Int) = 40 - cRem w.iteration LINECHARS
        ∧ (cRem w.iteration LINECHARS ≠ 0 → 40 < bar.length) := by
  obtain ⟨h1, h2⟩ := cRem_of_neg w.iteration hn
  obtain ⟨k, hk, hb⟩ := frameBar_running w hs
  have hz : (cRem w.iteration LINECHARS).toNat = 0 := by omega
  have e : runningBar k w.iteration
      = List.replicate (40 - cRem w.iteration LINECHARS).toNat dimCell := by
    unfold runningBar
    rw [hz]
    rfl
  refine ⟨h1, h2, _, hb, ?_, e, ?_, ?_⟩
  · rw [e, fillLength_dim]
  · rw [e, List.length_replicate]; omega
  · intro hne
    rw [e, List.length_replicate]; omega

/-- Witness of C18: Mode1 at iteration -3 draws 43 dimmed dashes. -/
theorem negative_iteration_bar_witness :
    ∃ bar, frameBar { init [] 0 with state := MODE1, iteration := -3 } = some bar
      ∧ fillLength bar = 0
      ∧ bar = List.replicate (40 - cRem (-3) LINECHARS).toNat dimCell
      ∧ (bar.length : Int) = 40 - cRem (-3) LINECHARS
      ∧ (cRem (-3) LINECHARS ≠ 0 → 40 < bar.length) :=
  (negative_iteration_bar { init [] 0 with state := MODE1, iteration := -3 }
    (Or.inr (Or.inl rfl)) (by decide)).2.2

/-! ## The attribute in force between frames -/

@[simp] theorem getch_attr (w : World) : (getch w).2.attr = w.attr := by
  unfold getch; split <;> rfl

@[simp] theorem forRange_rule_attr (w : World) :
    (forRange 0 LINECHARS dimDash w).attr = A_NORMAL := by
  rw [forRange_eq]
  show (dimDash^[39 + 1] w).attr = A_NORMAL
  rw [Function.iterate_succ_apply']
  rfl

theorem off_attr (w : World) : (off w).attr = A_NORMAL := by
  unfold off
  simp only []
  split_ifs <;> simp [timeout, refresh, printw]

theorem on_attr (w : World) : («on» w).attr = A_NORMAL := by
  unfold «on»
  simp only []
  split_ifs <;> simp [timeout, refresh, printw]

theorem mode1_attr (w : World) : (mode1 w).attr = A_NORMAL := by
  unfold mode1
  simp only []
  split_ifs <;> simp [timeout, refresh, printw]

theorem mode2_attr (w : World) : (mode2 w).attr = A_NORMAL := by
  unfold mode2
  simp only []
  split_ifs <;> simp [timeout, refresh, printw]

theorem shutdown_attr (w : World) : (shutdown w).attr = w.attr := by
  simp [shutdown, exit, printf, endwin]

theorem loopPass_attr (t : Int) (w w1 : World) (h : loopPass t w = some w1) :
    w1.attr = A_NORMAL := by
  obtain ⟨w2, hd, rfl⟩ := loopPass_some t w w1 h
  have h2 : w2.attr = A_NORMAL := by
    rcases dispatch_cases _ _ hd with ⟨_, rfl⟩ | ⟨_, rfl⟩ | ⟨_, rfl⟩ | ⟨_, rfl⟩ | ⟨_, rfl⟩
    · exact off_attr _
    · exact on_attr _
    · exact mode1_attr _
    · exact mode2_attr _
    · rw [shutdown_attr, header_attr]
  split_ifs
  · exact h2
  · exact h2

theorem mainLoop_attr (clock : List Int) :
    ∀ (w w1 : World), mainLoop clock w = some w1 → w.attr = A_NORMAL → w1.attr = A_NORMAL := by
  induction clock with
  | nil =>
    intro w w1 h ha
    simp only [mainLoop, Option.some.injEq] at h
    rw [← h]; exact ha
  | cons t clock ih =>
    intro w w1 h ha
    unfold mainLoop at h
    split at h
    · simp only [Option.some.injEq] at h
      rw [← h]; exact ha
    · cases hp : loopPass t w with
      | none => rw [hp] at h; simp at h
      | some w2 =>
        rw [hp] at h
        simp only [Option.some_bind] at h
        exact ih w2 w1 h (loopPass_attr t w w2 hp)

/-! ## The window line by line -/

theorem joinLines_append (l1 l2 : List (List Cell × Attr)) :
    joinLines (l1 ++ l2) = joinLines l1 ++ joinLines l2 := by
  induction l1 with
  | nil => rfl
  | cons l ls ih => simp [joinLines, ih]

theorem joinLines_forall (P : Cell → Prop) (ls : List (List Cell × Attr))
    (h : ∀ l ∈ ls, (∀ c ∈ l.1, P c) ∧ P ⟨'\n', l.2⟩) : ∀ c ∈ joinLines ls, P c := by
  induction ls with
  | nil => intro c hc; cases hc
  | cons l ls ih =>
    intro c hc
    simp only [joinLines, List.mem_append, List.mem_cons] at hc
    rcases hc with hc | hc | hc
    · exact (h l (List.mem_cons_self _ _)).1 c hc
    · rw [hc]; exact (h l (List.mem_cons_self _ _)).2
    · exact ih (fun l2 hl2 => h l2 (List.mem_cons_of_mem _ hl2)) c hc

theorem frameLines_split (a0 : Attr) (status : String) (bar : List Cell)
    (menu : List (List Cell × Attr)) :
    frameLines a0 status bar menu = headerLines a0 ++ bodyLines status bar menu := by
  simp [frameLines, headerLines, bodyLines]

theorem header_screen (w : World) : (header w).screen = joinLines (headerLines w.attr) := by
  rw [header_eq]
  simp [joinLines, headerLines]

theorem drop_header (w : World) (status : String) (bar : List Cell)
    (menu : List (List Cell × Attr)) :
    (joinLines (frameLines w.attr status bar menu)).drop (header w).screen.length
      = joinLines (bodyLines status bar menu) := by
  rw [frameLines_split, joinLines_append, header_screen, List.drop_left]

theorem mem_cellsOf (a : Attr) (s : List Char) (c : Cell) (h : c ∈ cellsOf a s) :
    c.attr = a := by
  simp only [cellsOf, List.mem_map] at h
  obtain ⟨x, _, rfl⟩ := h
  rfl

theorem mem_runningBar (k : Nat) (n : Int) (c : Cell) (h : c ∈ runningBar k n) :
    c = colorCell k ∨ c = dimCell := by
  unfold runningBar at h
  rcases List.mem_append.1 h with h | h
  · exact Or.inl (List.mem_replicate.1 h).2
  · exact Or.inr (List.mem_replicate.1 h).2

/-! ## The attributes a handler draws in -/

theorem bodyLines_attrs (P : Cell → Prop) (status : String) (bar : List Cell)
    (menu : List (List Cell × Attr)) (hn : ∀ c : Cell, c.attr = A_NORMAL → P c)
    (hd : P dimCell) (hb : ∀ c ∈ bar, P c)
    (hm : ∀ l ∈ menu, (∀ c ∈ l.1, P c) ∧ P ⟨'\n', l.2⟩) :
    ∀ c ∈ joinLines (bodyLines status bar menu), P c := by
  apply joinLines_forall
  intro l hl
  have hnil : (∀ c ∈ ([] : List Cell), P c) ∧ P ⟨'\n', A_NORMAL⟩ :=
    ⟨fun c hc => (by cases hc), hn _ rfl⟩
  simp only [bodyLines, List.mem_append, List.mem_cons, List.mem_singleton,
    List.not_mem_nil, or_false] at hl
  rcases hl with ((hl | hl | hl | hl | hl) | hl) | hl | hl
  · rw [hl]; exact hnil
  · rw [hl]; exact ⟨fun c hc => hn c (mem_cellsOf _ _ c hc), hn _ rfl⟩
  · rw [hl]; exact hnil
  · rw [hl]; exact ⟨hb, hn _ rfl⟩
  · rw [hl]; exact hnil
  · exact hm l hl
  · rw [hl]; exact hnil
  · rw [hl]
    exact ⟨fun c hc => (by rw [(List.mem_replicate.1 hc).2]; exact hd), hn _ rfl⟩

theorem menuCells_attrs (P : Cell → Prop) (a : Attr) (k label : String)
    (h : ∀ c : Cell, c.attr = a → P c) :
    (∀ c ∈ (menuCells a k label).1, P c) ∧ P ⟨'\n', (menuCells a k label).2⟩ :=
  ⟨fun c hc => h c (mem_cellsOf _ _ c hc), h _ rfl⟩

theorem handlerCells_off (w : World) (h : w.state = OFF) :
    handlerCells w = some (joinLines (bodyLines "Machine is off" (List.replicate 40 dimCell)
      [menuCells A_NORMAL "(i)" "Turn on", menuCells A_NORMAL "(x)" "Exit"])) := by
  unfold handlerCells
  rw [dispatch_off _ (by rw [header_state]; exact h), Option.map_some', off_frame, drop_header]

theorem handlerCells_on (w : World) (h : w.state = ON) :
    handlerCells w = some (joinLines (bodyLines "Machine is running in Idle mode"
      (runningBar 1 w.iteration)
      [menuCells (COLOR_PAIR 1) "(i)" "Idle mode", menuCells A_NORMAL "(1)" "Mode 1",
       menuCells A_NORMAL "(2)" "Mode 2", menuCells A_NORMAL "(0)" "Turn off"])) := by
  unfold handlerCells
  rw [dispatch_on _ (by rw [header_state]; exact h), Option.map_some', on_frame, drop_header]

theorem handlerCells_mode1 (w : World) (h : w.state = MODE1) :
    handlerCells w = some (joinLines (bodyLines "Machine is running in Mode 1"
      (runningBar 2 w.iteration)
      [menuCells A_NORMAL "(i)" "Idle mode", menuCells (COLOR_PAIR 2) "(1)" "Mode 1",
       menuCells A_NORMAL "(2)" "Mode 2", menuCells A_NORMAL "(0)" "Turn off"])) := by
  unfold handlerCells
  rw [dispatch_mode1 _ (by rw [header_state]; exact h), Option.map_some', mode1_frame,
    drop_header]

theorem handlerCells_mode2 (w : World) (h : w.state = MODE2) :
    handlerCells w = some (joinLines (bodyLines "Machine is running in Mode 2"
      (runningBar 3 w.iteration)
      [menuCells A_NORMAL "(i)" "Idle mode", menuCells A_NORMAL "(1)" "Mode 1",
       menuCells (COLOR_PAIR 3) "(2)" "Mode 2", menuCells A_NORMAL "(0)" "Turn off"])) := by
  unfold handlerCells
  rw [dispatch_mode2 _ (by rw [header_state]; exact h), Option.map_some', mode2_frame,
    drop_header]

theorem handlerCells_shutdown (w : World) (h : w.state = SHUTDOWN) :
    handlerCells w = some [] := by
  unfold handlerCells
  rw [dispatch_shutdown _ (by rw [header_state]; exact h), Option.map_some',
    (shutdown_fields _).2.2.2.2.1, List.drop_length]

theorem running_attrs (k : Nat) (status : String) (n : Int)
    (menu : List (List Cell × Attr))
    (hm : ∀ l ∈ menu, (∀ c ∈ l.1, c.attr = A_NORMAL ∨ c.attr = A_DIM ∨ c.attr = COLOR_PAIR k)
      ∧ (l.2 = A_NORMAL ∨ l.2 = A_DIM ∨ l.2 = COLOR_PAIR k)) :
    ∀ c ∈ joinLines (bodyLines status (runningBar k n) menu),
      c.attr = A_NORMAL ∨ c.attr = A_DIM ∨ c.attr = COLOR_PAIR k := by
  apply bodyLines_attrs (fun c => c.attr = A_NORMAL ∨ c.attr = A_DIM ∨ c.attr = COLOR_PAIR k)
  · intro c hc; exact Or.inl hc
  · exact Or.inr (Or.inl rfl)
  · intro c hc
    rcases mem_runningBar k n c hc with h | h
    · rw [h]; exact Or.inr (Or.inr rfl)
    · rw [h]; exact Or.inr (Or.inl rfl)
  · exact hm

theorem handlerCells_attrs (w : World) (cs : List Cell) (h : handlerCells w = some cs) :
    ∀ c ∈ cs, c.attr = A_NORMAL ∨ c.attr = A_DIM
      ∨ (w.state = ON ∧ c.attr = COLOR_PAIR 1)
      ∨ (w.state = MODE1 ∧ c.attr = COLOR_PAIR 2)
      ∨ (w.state = MODE2 ∧ c.attr = COLOR_PAIR 3) := by
  have hd : ∃ w1, dispatch (header w) = some w1 := by
    unfold handlerCells at h
    cases hh : dispatch (header w) with
    | none => rw [hh] at h; simp at h
    | some w1 => exact ⟨w1, rfl⟩
  obtain ⟨w1, hw1⟩ := hd
  have nrm : ∀ (k : Nat) (x label : String) (c : Cell),
      c ∈ (menuCells A_NORMAL x label).1 →
        c.attr = A_NORMAL ∨ c.attr = A_DIM ∨ c.attr = COLOR_PAIR k :=
    fun k x label c hc => Or.inl (mem_cellsOf _ _ c hc)
  have col : ∀ (k : Nat) (x label : String) (c : Cell),
      c ∈ (menuCells (COLOR_PAIR k) x label).1 →
        c.attr = A_NORMAL ∨ c.attr = A_DIM ∨ c.attr = COLOR_PAIR k :=
    fun k x label c hc => Or.inr (Or.inr (mem_cellsOf _ _ c hc))
  rcases dispatch_cases _ _ hw1 with ⟨hs, _⟩ | ⟨hs, _⟩ | ⟨hs, _⟩ | ⟨hs, _⟩ | ⟨hs, _⟩
  all_goals rw [header_state] at hs
  · rw [handlerCells_off w hs] at h
    rw [← Option.some.inj h]
    intro c hc
    have := bodyLines_attrs (fun c => c.attr = A_NORMAL ∨ c.attr = A_DIM) _ _ _
      (fun c hc => Or.inl hc) (Or.inr rfl)
      (fun c hc => by rw [(List.mem_replicate.1 hc).2]; exact Or.inr rfl)
      (by
        intro l hl
        simp only [List.mem_cons, List.mem_singleton, List.not_mem_nil, or_false] at hl
        rcases hl with hl | hl <;> rw [hl] <;>
          exact ⟨fun c hc => Or.inl (mem_cellsOf _ _ c hc), Or.inl rfl⟩) c hc
    rcases this with h1 | h1
    · exact Or.inl h1
    · exact Or.inr (Or.inl h1)
  · rw [handlerCells_on w hs] at h
    rw [← Option.some.inj h]
    intro c hc
    have := running_attrs 1 _ _ _ (by
      intro l hl
      simp only [List.mem_cons, List.mem_singleton, List.not_mem_nil, or_false] at hl
      rcases hl with hl | hl | hl | hl <;> rw [hl]
      · exact ⟨col 1 _ _, Or.inr (Or.inr rfl)⟩
      · exact ⟨nrm 1 _ _, Or.inl rfl⟩
      · exact ⟨nrm 1 _ _, Or.inl rfl⟩
      · exact ⟨nrm 1 _ _, Or.inl rfl⟩) c hc
    rcases this with h1 | h1 | h1
    · exact Or.inl h1
    · exact Or.inr (Or.inl h1)
    · exact Or.inr (Or.inr (Or.inl ⟨hs, h1⟩))
  · rw [handlerCells_mode1 w hs] at h
    rw [← Option.some.inj h]
    intro c hc
    have := running_attrs 2 _ _ _ (by
      intro l hl
      simp only [List.mem_cons, List.mem_singleton, List.not_mem_nil, or_false] at hl
      rcases hl with hl | hl | hl | hl <;> rw [hl]
      · exact ⟨nrm 2 _ _, Or.inl rfl⟩
      · exact ⟨col 2 _ _, Or.inr (Or.inr rfl)⟩
      · exact ⟨nrm 2 _ _, Or.inl rfl⟩
      · exact ⟨nrm 2 _ _, Or.inl rfl⟩) c hc
    rcases this with h1 | h1 | h1
    · exact Or.inl h1
    · exact Or.inr (Or.inl h1)
    · exact Or.inr (Or.inr (Or.inr (Or.inl ⟨hs, h1⟩)))
  · rw [handlerCells_mode2 w hs] at h
    rw [← Option.some.inj h]
    intro c hc
    have := running_attrs 3 _ _ _ (by
      intro l hl
      simp only [List.mem_cons, List.mem_singleton, List.not_mem_nil, or_false] at hl
      rcases hl with hl | hl | hl | hl <;> rw [hl]
      · exact ⟨nrm 3 _ _, Or.inl rfl⟩
      · exact ⟨nrm 3 _ _, Or.inl rfl⟩
      · exact ⟨col 3 _ _, Or.inr (Or.inr rfl)⟩
      · exact ⟨nrm 3 _ _, Or.inl rfl⟩) c hc
    rcases this with h1 | h1 | h1
    · exact Or.inl h1
    · exact Or.inr (Or.inl h1)
    · exact Or.inr (Or.inr (Or.inr (Or.inr ⟨hs, h1⟩)))
  · rw [handlerCells_shutdown w hs] at h
    rw [← Option.some.inj h]
    intro c hc
    cases hc

/-! ## Menu lines and the header lines -/

theorem lineAt_menu (a0 : Attr) (status : String) (bar : List Cell)
    (m0 m1 m2 m3 : List Cell × Attr)
    (hs : ∀ c ∈ fmtRight (LINECHARS - 1) status, c ≠ '\n') (hb : lineFree bar)
    (h0 : lineFree m0.1) (h1 : lineFree m1.1) (h2 : lineFree m2.1) :
    lineAt 8 (joinLines (frameLines a0 status bar [m0, m1, m2, m3])) = m0.1
      ∧ lineAt 9 (joinLines (frameLines a0 status bar [m0, m1, m2, m3])) = m1.1
      ∧ lineAt 10 (joinLines (frameLines a0 status bar [m0, m1, m2, m3])) = m2.1 := by
  unfold frameLines
  simp only [List.cons_append, List.nil_append]
  have skip : ∀ (n : Nat) (rest : List (List Cell × Attr)),
      lineAt (n + 8) (joinLines (([], a0) ::
        (cellsOf ⟨a0.pair, true⟩ "C State Machine".toList, (⟨a0.pair, true⟩ : Attr)) ::
        (List.replicate 40 dimCell, A_NORMAL) :: ([], A_NORMAL) ::
        (cellsOf A_NORMAL (fmtRight (LINECHARS - 1) status), A_NORMAL) :: ([], A_NORMAL) ::
        (bar, A_NORMAL) :: ([], A_NORMAL) :: rest)) = lineAt n (joinLines rest) := by
    intro n rest
    rw [lineAt_succ_join _ _ _ lineFree_nil,
      lineAt_succ_join _ _ _ (lineFree_cellsOf _ _ (by decide)),
      lineAt_succ_join _ _ _ (lineFree_replicate _ _ (by decide)),
      lineAt_succ_join _ _ _ lineFree_nil,
      lineAt_succ_join _ _ _ (lineFree_cellsOf _ _ hs),
      lineAt_succ_join _ _ _ lineFree_nil,
      lineAt_succ_join _ _ _ hb,
      lineAt_succ_join _ _ _ lineFree_nil]
  refine ⟨?_, ?_, ?_⟩
  · rw [skip 0, lineAt_zero_join _ _ h0]
  · rw [skip 1, lineAt_succ_join _ _ _ h0, lineAt_zero_join _ _ h1]
  · rw [skip 2, lineAt_succ_join _ _ _ h0, lineAt_succ_join _ _ _ h1, lineAt_zero_join _ _ h2]

theorem lineFree_menuCells (a : Attr) (k label : String)
    (h : ∀ c ∈ fmtLeft COLUMNWIDTH k ++ [' '] ++ fmtRight (LINECHARS - COLUMNWIDTH - 1) label,
      c ≠ '\n') : lineFree (menuCells a k label).1 :=
  lineFree_cellsOf _ _ h

theorem menu_on (w : World) :
    lineAt 8 («on» (header w)).screen = (menuCells (COLOR_PAIR 1) "(i)" "Idle mode").1 := by
  rw [on_frame]
  exact (lineAt_menu _ _ _ _ _ _ _ (by decide) (lineFree_runningBar _ _)
    (lineFree_menuCells _ _ _ (by decide)) (lineFree_menuCells _ _ _ (by decide))
    (lineFree_menuCells _ _ _ (by decide))).1

theorem menu_mode1 (w : World) :
    lineAt 9 (mode1 (header w)).screen = (menuCells (COLOR_PAIR 2) "(1)" "Mode 1").1 := by
  rw [mode1_frame]
  exact (lineAt_menu _ _ _ _ _ _ _ (by decide) (lineFree_runningBar _ _)
    (lineFree_menuCells _ _ _ (by decide)) (lineFree_menuCells _ _ _ (by decide))
    (lineFree_menuCells _ _ _ (by decide))).2.1

theorem menu_mode2 (w : World) :
    lineAt 10 (mode2 (header w)).screen = (menuCells (COLOR_PAIR 3) "(2)" "Mode 2").1 := by
  rw [mode2_frame]
  exact (lineAt_menu _ _ _ _ _ _ _ (by decide) (lineFree_runningBar _ _)
    (lineFree_menuCells _ _ _ (by decide)) (lineFree_menuCells _ _ _ (by decide))
    (lineFree_menuCells _ _ _ (by decide))).2.2

theorem header_lines (w : World) :
    lineAt 0 (header w).screen = []
      ∧ lineAt 1 (header w).screen = cellsOf ⟨w.attr.pair, true⟩ "C State Machine".toList
      ∧ lineAt 2 (header w).screen = List.replicate 40 dimCell := by
  rw [header_screen]
  unfold headerLines
  refine ⟨?_, ?_, ?_⟩
  · rw [lineAt_zero_join _ _ lineFree_nil]
  · rw [lineAt_succ_join _ _ _ lineFree_nil,
      lineAt_zero_join _ _ (lineFree_cellsOf _ _ (by decide))]
  · rw [lineAt_succ_join _ _ _ lineFree_nil,
      lineAt_succ_join _ _ _ (lineFree_cellsOf _ _ (by decide)),
      lineAt_zero_join _ _ (lineFree_replicate _ _ (by decide))]

theorem main_pairs (keys : List Int) (t0 : Int) (clock : List Int) (w : World)
    (h : main keys t0 clock = some w) :
    w.pairs = [(1, Color.green, Color.black), (2, Color.yellow, Color.black),
      (3, Color.red, Color.black)] :=
  mainLoop_pairs clock _ w h

theorem main_attr (keys : List Int) (t0 : Int) (clock : List Int) (w : World)
    (h : main keys t0 clock = some w) : w.attr = A_NORMAL :=
  mainLoop_attr clock _ w h rfl

/-- C13. Header: every call of `header` discards what the window held and
leaves in it, in this order, a blank line, the title line "C State Machine"
with the dim attribute switched on, a rule of exactly 40 dashes each in the
dimmed default colour, and a newline.  The result depends on the entry
attribute alone, not on the state, the iteration counter or the old window,
and in a run of `main` the entry attribute is always normal, so the title is
drawn in the dimmed default colour too. -/
theorem header_output (w : World) :
    (header w).screen
        = (⟨'\n', w.attr⟩ : Cell) :: (cellsOf ⟨w.attr.pair, true⟩ "C State Machine\n".toList
            ++ (List.replicate 40 (⟨'-', A_DIM⟩ : Cell) ++ [⟨'\n', A_NORMAL⟩]))
      ∧ lineAt 1 (header w).screen = cellsOf ⟨w.attr.pair, true⟩ "C State Machine".toList
      ∧ lineAt 2 (header w).screen = List.replicate 40 (⟨'-', A_DIM⟩ : Cell)
      ∧ (∀ (s n : Int) (old : List Cell),
          (header { w with state := s, iteration := n, screen := old }).screen
            = (header w).screen)
      ∧ (∀ v : World, v.attr = w.attr → (header v).screen = (header w).screen)
      ∧ (∀ (keys : List Int) (t0 : Int) (clock : List Int), main keys t0 clock = some w →
          w.attr = A_NORMAL
          ∧ lineAt 1 (header w).screen = cellsOf A_DIM "C State Machine".toList) := by
  refine ⟨?_, (header_lines w).2.1, (header_lines w).2.2, ?_, ?_, ?_⟩
  · rw [header_eq]
    simp [cellsOf, dimCell]
  · intro s n old
    rw [header_eq, header_eq]
  · intro v hv
    rw [header_eq, header_eq, hv]
  · intro keys t0 clock hrun
    have ha := main_attr keys t0 clock w hrun
    refine ⟨ha, ?_⟩
    rw [(header_lines w).2.1, ha]
    rfl

/-- Witness of C13: the first header of a run. -/
theorem header_output_witness :
    (init [] 0).attr = A_NORMAL
      ∧ lineAt 1 (header (init [] 0)).screen = cellsOf A_DIM "C State Machine".toList :=
  (header_output (init [] 0)).2.2.2.2.2 [] 0 [] rfl

/-- C14. Highlight colours: in every run of `main` pair 1 is green on black,
pair 2 yellow on black and pair 3 red on black; the bar's filled part and the
menu entry of the current state are drawn in pair 1 in On (entry "(i) Idle
mode"), pair 2 in Mode1 (entry "(1) Mode 1") and pair 3 in Mode2 (entry
"(2) Mode 2"); and every cell a handler draws is in the normal attribute, the
dimmed default colour, or the pair of the handler's own state. -/
theorem highlight_colours (keys : List Int) (t0 : Int) (clock : List Int) (w : World)
    (hrun : main keys t0 clock = some w) :
    pairColors w 1 = some (Color.green, Color.black)
      ∧ pairColors w 2 = some (Color.yellow, Color.black)
      ∧ pairColors w 3 = some (Color.red, Color.black)
      ∧ (∀ v : World, v.state = ON →
          dispatch (header v) = some («on» (header v))
          ∧ progressBar («on» (header v))
              = List.replicate (cRem v.iteration LINECHARS).toNat (⟨'-', COLOR_PAIR 1⟩ : Cell)
                ++ List.replicate (LINECHARS - cRem v.iteration LINECHARS).toNat dimCell
          ∧ lineAt 8 («on» (header v)).screen
              = (menuCells (COLOR_PAIR 1) "(i)" "Idle mode").1)
      ∧ (∀ v : World, v.state = MODE1 →
          dispatch (header v) = some (mode1 (header v))
          ∧ progressBar (mode1 (header v))
              = List.replicate (cRem v.iteration LINECHARS).toNat (⟨'-', COLOR_PAIR 2⟩ : Cell)
                ++ List.replicate (LINECHARS - cRem v.iteration LINECHARS).toNat dimCell
          ∧ lineAt 9 (mode1 (header v)).screen
              = (menuCells (COLOR_PAIR 2) "(1)" "Mode 1").1)
      ∧ (∀ v : World, v.state = MODE2 →
          dispatch (header v) = some (mode2 (header v))
          ∧ progressBar (mode2 (header v))
              = List.replicate (cRem v.iteration LINECHARS).toNat (⟨'-', COLOR_PAIR 3⟩ : Cell)
                ++ List.replicate (LINECHARS - cRem v.iteration LINECHARS).toNat dimCell
          ∧ lineAt 10 (mode2 (header v)).screen
              = (menuCells (COLOR_PAIR 3) "(2)" "Mode 2").1)
      ∧ (∀ (v : World) (cs : List Cell), handlerCells v = some cs →
          ∀ c ∈ cs, c.attr = A_NORMAL ∨ c.attr = A_DIM
            ∨ (v.state = ON ∧ c.attr = COLOR_PAIR 1)
            ∨ (v.state = MODE1 ∧ c.attr = COLOR_PAIR 2)
            ∨ (v.state = MODE2 ∧ c.attr = COLOR_PAIR 3)) := by
  have hp := main_pairs keys t0 clock w hrun
  refine ⟨?_, ?_, ?_, ?_, ?_, ?_, handlerCells_attrs⟩
  · unfold pairColors; rw [hp]; rfl
  · unfold pairColors; rw [hp]; rfl
  · unfold pairColors; rw [hp]; rfl
  · intro v hv
    exact ⟨dispatch_on _ (by rw [header_state]; exact hv), bar_on v, menu_on v⟩
  · intro v hv
    exact ⟨dispatch_mode1 _ (by rw [header_state]; exact hv), bar_mode1 v, menu_mode1 v⟩
  · intro v hv
    exact ⟨dispatch_mode2 _ (by rw [header_state]; exact hv), bar_mode2 v, menu_mode2 v⟩

/-- Witness of C14: the run with no pass, and a Mode2 frame. -/
theorem highlight_colours_witness :
    pairColors (init [] 0) 3 = some (Color.red, Color.black)
      ∧ lineAt 10 (mode2 (header { init [] 0 with state := MODE2 })).screen
          = (menuCells (COLOR_PAIR 3) "(2)" "Mode 2").1 :=
  ⟨(highlight_colours [] 0 [] (init [] 0) rfl).2.2.1,
   ((highlight_colours [] 0 [] (init [] 0) rfl).2.2.2.2.2.1
      { init [] 0 with state := MODE2 } rfl).2.2⟩

end CStateMachine
